import Mathlib

/-!
Verification of the `clusters` package.

A shallow embedding of `cluster.go` and `observations.go`.

Modelling conventions:
* `float64` is modelled by `ℚ`. The definitions named after the source (`Distance`,
  `Center`, `AverageDistance`, ...) compute in exact arithmetic, `math.Pow(x, 2)` being
  `x ^ 2`. The definitions with the suffix `64` are the same code with the float64
  rounding of every arithmetic result spelled out through `round64`; they are used where
  rounding or underflow decides a property. Infinities and NaN are outside both.
* a Go slice is a `List`; indexing outside the slice is the run-time panic
  `Panic.indexOutOfRange`, carried by `Except`.
* a Go `error` return value is an `Option String` (`none` is `nil`).
* the interface `Observation` is a record of its two methods.
* in-place mutation of a slice element is `List.set`.
* the global random source used by `New` is an injected stream `rand : Nat → ℚ`.
* the driver that runs a pass is not among the source files; `assignAll` and `onePass`
  compose the source functions in the order the specification gives.
-/

set_option linter.dupNamespace false

namespace clusters

/-- A Go run-time panic. The only one these files can raise by themselves is an
index outside a slice: `index` is the offending index, `length` the slice length. -/
inductive Panic where
  | indexOutOfRange (index : Nat) (length : Nat)
  deriving DecidableEq, Repr

/-- Go source: `type Coordinates struct { Values []float64; Label string }` -/
structure Coordinates where
  Values : List ℚ
  Label : String
  deriving DecidableEq, Repr

/-- Go source: `type Observation interface { Coordinates() Coordinates; Distance(point Coordinates) float64 }`.
An implementer is given by its two methods; `Distance` may panic. -/
structure Observation where
  Coordinates : clusters.Coordinates
  Distance : clusters.Coordinates → Except Panic ℚ

/-- Go source: `type Observations []Observation` -/
abbrev Observations := List Observation

/-- Go source: `func (c Coordinates) Coordinates() Coordinates { return c }` -/
def Coordinates.Coordinates (c : clusters.Coordinates) : clusters.Coordinates := c

/-- The loop of `Coordinates.Distance`: `for i, v := range c.Values { r += math.Pow(v-p2.Values[i], 2) }`.
The list argument is the part of `c.Values` still to visit, `i` the current index,
`r` the accumulator. -/
def Coordinates.distanceLoop (p2 : List ℚ) : List ℚ → Nat → ℚ → Except Panic ℚ
  | [], _, r => .ok r
  | v :: vs, i, r =>
    match p2[i]? with
    | none => .error (.indexOutOfRange i p2.length)
    | some w => Coordinates.distanceLoop p2 vs (i + 1) (r + (v - w) ^ 2)

/-- Go source: `func (c Coordinates) Distance(p2 Coordinates) float64` -/
def Coordinates.Distance (c p2 : clusters.Coordinates) : Except Panic ℚ :=
  Coordinates.distanceLoop p2.Values c.Values 0 0

/-- Plain `Coordinates` implement the `Observation` interface with the two methods above. -/
def Coordinates.toObservation (c : clusters.Coordinates) : Observation :=
  { Coordinates := c.Coordinates, Distance := c.Distance }

/-- The inner loop of `Observations.Center`: `for j, v := range point.Coordinates().Values { cc[j] += v }`. -/
def Observations.centerInner : List ℚ → Nat → List ℚ → Except Panic (List ℚ)
  | [], _, cc => .ok cc
  | v :: vs, j, cc =>
    match cc[j]? with
    | none => .error (.indexOutOfRange j cc.length)
    | some x => Observations.centerInner vs (j + 1) (cc.set j (x + v))

/-- The outer loop of `Observations.Center`: `for _, point := range c { ... }`. -/
def Observations.centerOuter : List Observation → List ℚ → Except Panic (List ℚ)
  | [], cc => .ok cc
  | point :: rest, cc =>
    match Observations.centerInner point.Coordinates.Values 0 cc with
    | .error e => .error e
    | .ok cc1 => Observations.centerOuter rest cc1

/-- Go source: `func (c Observations) Center() (Coordinates, error)`. The result is the Go pair
`(Coordinates, error)`; a panic is the `Except` error. -/
def Observations.Center (c : Observations) : Except Panic (Coordinates × Option String) :=
  match c with
  | [] => .ok ({ Values := [], Label := "" }, some "there is no mean for an empty set of points")
  | c0 :: _ =>
    match Observations.centerOuter c (List.replicate c0.Coordinates.Values.length 0) with
    | .error e => .error e
    | .ok cc => .ok ({ Values := cc.map (fun v => v / (c.length : ℚ)), Label := "" }, none)

/-- The loop of `AverageDistance`; the state is the pair `(d, l)`. -/
def averageDistanceLoop (o : Observation) : List Observation → ℚ → Nat → Except Panic (ℚ × Nat)
  | [], d, l => .ok (d, l)
  | observation :: rest, d, l =>
    match o.Distance observation.Coordinates with
    | .error e => .error e
    | .ok dist =>
      if dist = 0 then averageDistanceLoop o rest d l
      else averageDistanceLoop o rest (d + dist) (l + 1)

/-- Go source: `func AverageDistance(o Observation, observations Observations) float64` -/
def AverageDistance (o : Observation) (observations : Observations) : Except Panic ℚ :=
  match averageDistanceLoop o observations 0 0 with
  | .error e => .error e
  | .ok (d, l) => if l = 0 then .ok 0 else .ok (d / (l : ℚ))

/-- Go source: `type Cluster struct { Center Coordinates; Observations Observations }` -/
structure Cluster where
  Center : Coordinates
  Observations : clusters.Observations

/-- Go source: `type Clusters []Cluster` -/
abbrev Clusters := List Cluster

/-- Go source: `func (c *Cluster) Append(point Observation)` -/
def Cluster.Append (c : Cluster) (point : Observation) : Cluster :=
  { c with Observations := c.Observations ++ [point] }

/-- The loop of `Clusters.Nearest`; the list is the part of `c` still to visit, `i` the
current index, `dist` and `ci` the two local variables. -/
def Clusters.nearestLoop (point : Observation) : List Cluster → Nat → ℚ → Nat → Except Panic Nat
  | [], _, _, ci => .ok ci
  | cluster :: rest, i, dist, ci =>
    match point.Distance cluster.Center with
    | .error e => .error e
    | .ok d =>
      if dist < 0 ∨ d < dist then Clusters.nearestLoop point rest (i + 1) d i
      else Clusters.nearestLoop point rest (i + 1) dist ci

/-- Go source: `func (c Clusters) Nearest(point Observation) int` -/
def Clusters.Nearest (c : Clusters) (point : Observation) : Except Panic Nat :=
  Clusters.nearestLoop point c 0 (-1) 0

/-- The loop of `Clusters.Neighbour`; `nc` and `d` are the two local variables. -/
def Clusters.neighbourLoop (point : Observation) (fromCluster : Int) :
    List Cluster → Nat → Int → ℚ → Except Panic (Int × ℚ)
  | [], _, nc, d => .ok (nc, d)
  | cluster :: rest, i, nc, d =>
    if (i : Int) = fromCluster then Clusters.neighbourLoop point fromCluster rest (i + 1) nc d
    else
      match AverageDistance point cluster.Observations with
      | .error e => .error e
      | .ok cd =>
        if nc < 0 ∨ cd < d then Clusters.neighbourLoop point fromCluster rest (i + 1) (i : Int) cd
        else Clusters.neighbourLoop point fromCluster rest (i + 1) nc d

/-- Go source: `func (c Clusters) Neighbour(point Observation, fromCluster int) (int, float64)` -/
def Clusters.Neighbour (c : Clusters) (point : Observation) (fromCluster : Int) :
    Except Panic (Int × ℚ) :=
  Clusters.neighbourLoop point fromCluster c 0 (-1) 0

/-- Go source: `func (c *Cluster) Recenter()` -/
def Cluster.Recenter (c : Cluster) : Except Panic Cluster :=
  match c.Observations.Center with
  | .error e => .error e
  | .ok (center, err) =>
    match err with
    | some _ => .ok c
    | none => .ok { c with Center := center }

/-- The loop `for i := 0; i < len(c); i++ { c[i].Recenter() }`; the first argument
bounds the number of iterations still to run. -/
def Clusters.recenterLoop : Nat → Nat → Clusters → Except Panic Clusters
  | 0, _, c => .ok c
  | n + 1, i, c =>
    match (c)[i]? with
    | none => .ok c
    | some cl =>
      match cl.Recenter with
      | .error e => .error e
      | .ok cl1 => Clusters.recenterLoop n (i + 1) (c.set i cl1)

/-- Go source: `func (c Clusters) Recenter()` -/
def Clusters.Recenter (c : Clusters) : Except Panic Clusters :=
  Clusters.recenterLoop c.length 0 c

/-- The loop `for i := 0; i < len(c); i++ { c[i].Observations = Observations{} }`. -/
def Clusters.resetLoop : Nat → Nat → Clusters → Clusters
  | 0, _, c => c
  | n + 1, i, c =>
    match (c)[i]? with
    | none => c
    | some cl => Clusters.resetLoop n (i + 1) (c.set i { cl with Observations := [] })

/-- Go source: `func (c Clusters) Reset()` -/
def Clusters.Reset (c : Clusters) : Clusters :=
  Clusters.resetLoop c.length 0 c

/-- The sum over all dimensions `i` of `(a[i] - b[i])^2`, as the specification words it;
the dimensions are those of `a`. -/
def sqEuclid (a b : List ℚ) : ℚ :=
  Finset.sum (Finset.range a.length) (fun i => (a.getD i 0 - b.getD i 0) ^ 2)

/-- An implementer of `Observation` whose `Distance` is a signed quantity: the sum of the
coordinates of the point it is given, minus one. -/
def signedObservation : Observation :=
  { Coordinates := { Values := [0], Label := "" },
    Distance := fun p => .ok (p.Values.sum - 1) }

/-- Two clusters with centers `(0)` and `(6)` and no members. -/
def twoCenters : Clusters :=
  [{ Center := { Values := [0], Label := "" }, Observations := [] },
   { Center := { Values := [6], Label := "" }, Observations := [] }]

/-- The arithmetic mean of the `j`-th components of the members of `c`: their sum divided
by the number of members, as the specification words it. -/
def componentMean (c : Observations) (j : Nat) : ℚ :=
  (c.map (fun o => o.Coordinates.Values.getD j 0)).sum / (c.length : ℚ)

/-- The members of `observations` that are not coincident with `o`: those whose coordinate
values differ from the values of `o`, in member order. -/
def distinctMembers (o : Coordinates) (observations : Observations) : List Observation :=
  observations.filter (fun m => decide (m.Coordinates.Values ≠ o.Values))

/-- The average, as the specification words it: the sum of the squared distances from `o`
to the members not coincident with `o`, divided by their number, and `0` when there is no
such member. -/
def averageOverDistinct (o : Coordinates) (observations : Observations) : ℚ :=
  if (distinctMembers o observations).length = 0 then 0
  else ((distinctMembers o observations).map
      (fun m => sqEuclid o.Values m.Coordinates.Values)).sum /
    ((distinctMembers o observations).length : ℚ)

/-- The members `(0,0)` and `(3,4)`, as plain Coordinates. -/
def originAndFar : Observations :=
  [({ Values := [0, 0], Label := "" } : Coordinates).toObservation,
   ({ Values := [3, 4], Label := "" } : Coordinates).toObservation]

/-- Two clusters: center `(0,0)` with members `(0,0), (0,1)` and center `(10,10)` with
members `(10,10), (10,11)`. -/
def pairOfClusters : Clusters :=
  [{ Center := { Values := [0, 0], Label := "" },
     Observations := [({ Values := [0, 0], Label := "" } : Coordinates).toObservation,
       ({ Values := [0, 1], Label := "" } : Coordinates).toObservation] },
   { Center := { Values := [10, 10], Label := "" },
     Observations := [({ Values := [10, 10], Label := "" } : Coordinates).toObservation,
       ({ Values := [10, 11], Label := "" } : Coordinates).toObservation] }]

/-- The inner loop of `New`: `for j := 0; j < len(...); j++ { p.Values[j] = rand.Float64() }`.
The random source is the stream `rand`; the state is `p.Values` and the number of draws
made so far. The first argument bounds the number of iterations still to run. -/
def New.fillLoop (rand : Nat → ℚ) : Nat → Nat → List ℚ → Nat → List ℚ × Nat
  | 0, _, values, n => (values, n)
  | fuel + 1, j, values, n => New.fillLoop rand fuel (j + 1) (values.set j (rand n)) (n + 1)

/-- The outer loop of `New`: `for i := 0; i < k; i++ { p := ...; c = append(c, Cluster{Center: p}) }`,
for a first observation of `dims` dimensions. -/
def New.clusterLoop (rand : Nat → ℚ) (dims : Nat) : Nat → Clusters → Nat → Clusters
  | 0, c, _ => c
  | fuel + 1, c, n =>
    New.clusterLoop rand dims fuel
      (c ++ [{ Center := { Values := (New.fillLoop rand dims 0 (List.replicate dims 0) n).1,
                           Label := "" },
               Observations := [] }])
      (New.fillLoop rand dims 0 (List.replicate dims 0) n).2

/-- Go source: `func New(k int, dataset Observations) (Clusters, error)`. The global random
source is the injected stream `rand` (the `n`-th call of `rand.Float64()` returns `rand n`). -/
def New (k : Int) (dataset : Observations) (rand : Nat → ℚ) : Clusters × Option String :=
  match dataset with
  | [] => ([], some "there must be at least one dimension in the data set")
  | d0 :: _ =>
    if d0.Coordinates.Values.length = 0 then
      ([], some "there must be at least one dimension in the data set")
    else if k = 0 then ([], some "k must be greater than 0")
    else (New.clusterLoop rand d0.Coordinates.Values.length k.toNat [] 0, none)

/-- The loop of `NewWithInitial`: `for i := 0; i < k; i++ { c = append(c, Cluster{Center: initialCenters[i]}) }`. -/
def NewWithInitial.loop (initialCenters : List Coordinates) :
    Nat → Nat → Clusters → Except Panic Clusters
  | 0, _, c => .ok c
  | fuel + 1, i, c =>
    match initialCenters[i]? with
    | none => .error (.indexOutOfRange i initialCenters.length)
    | some center =>
      NewWithInitial.loop initialCenters fuel (i + 1) (c ++ [{ Center := center, Observations := [] }])

/-- Go source: `func NewWithInitial(k int, dataset Observations, initialCenters []Coordinates) (Clusters, error)` -/
def NewWithInitial (k : Int) (dataset : Observations) (initialCenters : List Coordinates) :
    Except Panic (Clusters × Option String) :=
  match dataset with
  | [] => .ok ([], some "there must be at least one dimension in the data set")
  | d0 :: _ =>
    if d0.Coordinates.Values.length = 0 then
      .ok ([], some "there must be at least one dimension in the data set")
    else if k = 0 then .ok ([], some "k must be greater than 0")
    else if (initialCenters.length : Int) ≠ k then
      .ok ([], some "the number of initial centers must match k")
    else
      match NewWithInitial.loop initialCenters k.toNat 0 [] with
      | .error e => .error e
      | .ok c => .ok (c, none)

/-- The cluster that `Cluster.Recenter` leaves behind: its result when it returns, the
cluster itself when it panics. -/
def Cluster.recentered (c : Cluster) : Cluster :=
  match c.Recenter with
  | .ok c1 => c1
  | .error _ => c

/-- Modelled from the spec: the assignment step of one pass of the driver, which is not
among the source files: for each observation in dataset order, `Append` it to the cluster
at index `Nearest(observation)`. -/
def assignAll : Clusters → List Observation → Except Panic Clusters
  | c, [] => .ok c
  | c, point :: rest =>
    match c.Nearest point with
    | .error e => .error e
    | .ok ci =>
      match (c)[ci]? with
      | none => .error (.indexOutOfRange ci c.length)
      | some cl => assignAll (c.set ci (cl.Append point)) rest

/-- Modelled from the spec: one pass of the driver, which is not among the source files:
`Reset`, then the assignment of every observation, then `Clusters.Recenter`. -/
def onePass (c : Clusters) (dataset : Observations) : Except Panic Clusters :=
  match assignAll c.Reset dataset with
  | .error e => .error e
  | .ok c1 => c1.Recenter

/-- The dataset `[(0,0), (0,1), (10,10), (10,11)]` of the specification's scenario, as plain
Coordinates. -/
def scenarioDataset : Observations :=
  [({ Values := [0, 0], Label := "" } : Coordinates).toObservation,
   ({ Values := [0, 1], Label := "" } : Coordinates).toObservation,
   ({ Values := [10, 10], Label := "" } : Coordinates).toObservation,
   ({ Values := [10, 11], Label := "" } : Coordinates).toObservation]

/-- The seeded centers `[(0,0), (10,10)]` of the specification's scenario. -/
def scenarioCenters : List Coordinates :=
  [{ Values := [0, 0], Label := "" }, { Values := [10, 10], Label := "" }]

/-- The sum of the `j`-th components of those members of `c` that have a `j`-th component,
as the specification words it. -/
def presentComponentSum (c : Observations) (j : Nat) : ℚ :=
  ((c.filter (fun m => decide (j < m.Coordinates.Values.length))).map
    (fun m => m.Coordinates.Values.getD j 0)).sum

/-- The sum over the members `m` of `Distance(m, p)`, as the specification words it, each
term computed by the source's `Coordinates.Distance`. -/
def sumDistances : List Coordinates → Coordinates → Except Panic ℚ
  | [], _ => .ok 0
  | m :: ms, p =>
    match m.Distance p with
    | .error e => .error e
    | .ok d =>
      match sumDistances ms p with
      | .error e => .error e
      | .ok s => .ok (d + s)

/-- The index of the cluster an observation `p` is assigned to by a pass over the cluster
set `c`: the result of `c.Nearest(p)` (and `0` should that call panic). -/
def assignedIndex (c : Clusters) (p : Coordinates) : Nat :=
  match c.Nearest p.toObservation with
  | .ok ci => ci
  | .error _ => 0

/-- The clustering objective, as the specification words it: the sum over all observations
of the `Distance` from the observation to the center, in the cluster set `now`, of the
cluster it is assigned to, the assignment being `Nearest` on the cluster set `old` the pass
started from. Each term is computed by the source's `Nearest` and `Distance`. -/
def passObjective (old now : Clusters) : List Coordinates → Except Panic ℚ
  | [] => .ok 0
  | p :: ps =>
    match old.Nearest p.toObservation with
    | .error e => .error e
    | .ok ci =>
      match now[ci]? with
      | none => .error (.indexOutOfRange ci now.length)
      | some cl =>
        match p.Distance cl.Center with
        | .error e => .error e
        | .ok d =>
          match passObjective old now ps with
          | .error e => .error e
          | .ok s => .ok (d + s)

/-- The values of the center of cluster `i` of `cs` (no values when there is no such
cluster). -/
def centerValuesAt (cs : Clusters) (i : Nat) : List ℚ :=
  match cs[i]? with
  | some cl => cl.Center.Values
  | none => []

/-- Cluster `cl`, of index `i`, as the assignment step of a pass over `dataset` started
from the cluster set `cs` leaves it: the center of `cl`, and as members the observations
of the dataset whose assigned index is `i`, in dataset order. -/
def assignedCluster (cs : Clusters) (dataset : List Coordinates) (i : Nat) (cl : Cluster) :
    Cluster :=
  { Center := cl.Center,
    Observations := List.map Coordinates.toObservation
      (dataset.filter (fun p => decide (assignedIndex cs p = i))) }

/-- Rounding of a rational to the nearest integer, a tie going to the even neighbour. -/
def roundHalfEven (q : ℚ) : ℤ :=
  if q - ⌊q⌋ < 1 / 2 then ⌊q⌋
  else if 1 / 2 < q - ⌊q⌋ then ⌊q⌋ + 1
  else if ⌊q⌋ % 2 = 0 then ⌊q⌋ else ⌊q⌋ + 1

/-- The binary exponent that fixes the spacing of the float64 values around `x`: that of
the binade `2^e <= |x| < 2^(e+1)`, and `-1022` for the subnormal range below `2^(-1022)`. -/
def exponent64 (x : ℚ) : ℤ :=
  max (Int.log 2 |x|) (-1022)

/-- The float64 (IEEE 754 binary64) value nearest to `x`, ties to even: `x` is rounded to
a multiple of `2^(e-52)`, `e` being `exponent64 x` (53 significant bits; subnormals are
multiples of `2^(-1074)`, and anything below half of that becomes `0`). Go evaluates each
`float64` operation exactly and rounds the result so. Results beyond the largest finite
float64 (which Go turns into an infinity) are outside this model. -/
def round64 (x : ℚ) : ℚ :=
  if x = 0 then 0
  else (roundHalfEven (x / 2 ^ (exponent64 x - 52)) : ℚ) * 2 ^ (exponent64 x - 52)

/-- The loop of `Coordinates.Distance` with its float64 arithmetic spelled out: the
subtraction, `math.Pow(·, 2)` and the `+=` each round their exact result. (Go squares the
53-bit significand and rescales it, which is the rounded square whenever the result is not
subnormal.) -/
def Coordinates.distanceLoop64 (p2 : List ℚ) : List ℚ → Nat → ℚ → Except Panic ℚ
  | [], _, r => .ok r
  | v :: vs, i, r =>
    match p2[i]? with
    | none => .error (.indexOutOfRange i p2.length)
    | some w =>
      Coordinates.distanceLoop64 p2 vs (i + 1) (round64 (r + round64 (round64 (v - w) ^ 2)))

/-- Go source: `func (c Coordinates) Distance(p2 Coordinates) float64`, in float64
arithmetic. -/
def Coordinates.Distance64 (c p2 : clusters.Coordinates) : Except Panic ℚ :=
  Coordinates.distanceLoop64 p2.Values c.Values 0 0

/-- Plain `Coordinates` as an `Observation` whose `Distance` is computed in float64
arithmetic. -/
def Coordinates.toObservation64 (c : clusters.Coordinates) : Observation :=
  { Coordinates := c.Coordinates, Distance := c.Distance64 }

/-- The inner loop of `Observations.Center` in float64 arithmetic: `cc[j] += v` rounds. -/
def Observations.centerInner64 : List ℚ → Nat → List ℚ → Except Panic (List ℚ)
  | [], _, cc => .ok cc
  | v :: vs, j, cc =>
    match cc[j]? with
    | none => .error (.indexOutOfRange j cc.length)
    | some x => Observations.centerInner64 vs (j + 1) (cc.set j (round64 (x + v)))

/-- The outer loop of `Observations.Center` in float64 arithmetic. -/
def Observations.centerOuter64 : List Observation → List ℚ → Except Panic (List ℚ)
  | [], cc => .ok cc
  | point :: rest, cc =>
    match Observations.centerInner64 point.Coordinates.Values 0 cc with
    | .error e => .error e
    | .ok cc1 => Observations.centerOuter64 rest cc1

/-- Go source: `func (c Observations) Center() (Coordinates, error)`, in float64
arithmetic: `v / float64(l)` rounds (the count `l` itself is exact below `2^53`). -/
def Observations.Center64 (c : Observations) : Except Panic (Coordinates × Option String) :=
  match c with
  | [] => .ok ({ Values := [], Label := "" }, some "there is no mean for an empty set of points")
  | c0 :: _ =>
    match Observations.centerOuter64 c (List.replicate c0.Coordinates.Values.length 0) with
    | .error e => .error e
    | .ok cc => .ok ({ Values := cc.map (fun v => round64 (v / (c.length : ℚ))), Label := "" }, none)

/-- The loop of `AverageDistance` in float64 arithmetic: `d += dist` rounds. -/
def averageDistanceLoop64 (o : Observation) :
    List Observation → ℚ → Nat → Except Panic (ℚ × Nat)
  | [], d, l => .ok (d, l)
  | observation :: rest, d, l =>
    match o.Distance observation.Coordinates with
    | .error e => .error e
    | .ok dist =>
      if dist = 0 then averageDistanceLoop64 o rest d l
      else averageDistanceLoop64 o rest (round64 (d + dist)) (l + 1)

/-- Go source: `func AverageDistance(o Observation, observations Observations) float64`,
in float64 arithmetic: `d / float64(l)` rounds. -/
def AverageDistance64 (o : Observation) (observations : Observations) : Except Panic ℚ :=
  match averageDistanceLoop64 o observations 0 0 with
  | .error e => .error e
  | .ok (d, l) => if l = 0 then .ok 0 else .ok (round64 (d / (l : ℚ)))

/-- Go source: `func (c *Cluster) Recenter()`, with `Center` in float64 arithmetic. -/
def Cluster.Recenter64 (c : Cluster) : Except Panic Cluster :=
  match Observations.Center64 c.Observations with
  | .error e => .error e
  | .ok (center, err) =>
    match err with
    | some _ => .ok c
    | none => .ok { c with Center := center }

/-- The loop `for i := 0; i < len(c); i++ { c[i].Recenter() }`, with `Center` in float64
arithmetic. -/
def Clusters.recenterLoop64 : Nat → Nat → Clusters → Except Panic Clusters
  | 0, _, c => .ok c
  | n + 1, i, c =>
    match (c)[i]? with
    | none => .ok c
    | some cl =>
      match cl.Recenter64 with
      | .error e => .error e
      | .ok cl1 => Clusters.recenterLoop64 n (i + 1) (c.set i cl1)

/-- Go source: `func (c Clusters) Recenter()`, with `Center` in float64 arithmetic. -/
def Clusters.Recenter64 (c : Clusters) : Except Panic Clusters :=
  Clusters.recenterLoop64 c.length 0 c

/-- Modelled from the spec: one pass of the driver, which is not among the source files,
with `Center` in float64 arithmetic: `Reset`, then the assignment of every observation,
then `Clusters.Recenter`. -/
def onePass64 (c : Clusters) (dataset : Observations) : Except Panic Clusters :=
  match assignAll c.Reset dataset with
  | .error e => .error e
  | .ok c1 => c1.Recenter64

/-- The float64 value nearest to `0.3`. -/
def f64_0_3 : ℚ := 5404319552844595 / 2 ^ 54

/-- The float64 value nearest to `0.1`. -/
def f64_0_1 : ℚ := 3602879701896397 / 2 ^ 55

/-- The float64 value `0.09999999999999999`, one step below `f64_0_1`. -/
def f64_0_1_below : ℚ := 7205759403792793 / 2 ^ 56

/-- The number `o.Distance64(m.Coordinates())` returns (`0` should that call panic). -/
def computedDistance64 (o : Coordinates) (m : Observation) : ℚ :=
  match o.Distance64 m.Coordinates with
  | .ok d => d
  | .error _ => 0

/-- The members of `observations` that `AverageDistance` keeps in float64 arithmetic:
those whose computed distance from `o` is not `0`, in member order. -/
def keptMembers64 (o : Coordinates) (observations : Observations) : List Observation :=
  observations.filter (fun m => decide (computedDistance64 o m ≠ 0))

/-- The float64 sum of a list of numbers, added from left to right starting at `0`. -/
def sum64 (ds : List ℚ) : ℚ :=
  ds.foldl (fun acc d => round64 (acc + d)) 0

/-! Lemmas and theorems. -/

theorem distanceLoop_ok (p2 : List ℚ) :
    ∀ (vs : List ℚ) (i : Nat) (r : ℚ), i + vs.length ≤ p2.length →
      Coordinates.distanceLoop p2 vs i r =
        .ok (r + Finset.sum (Finset.range vs.length)
          (fun k => (vs.getD k 0 - p2.getD (i + k) 0) ^ 2)) := by
  intro vs
  induction vs with
  | nil => intro i r _; simp [Coordinates.distanceLoop]
  | cons v vs ih =>
    intro i r h
    have hi : i < p2.length := by simp at h; omega
    have hlen : i + 1 + vs.length ≤ p2.length := by simp at h; omega
    simp only [Coordinates.distanceLoop, List.getElem?_eq_getElem hi]
    rw [ih (i + 1) _ hlen, List.length_cons, Finset.sum_range_succ']
    have hget : p2.getD i 0 = p2[i] := by simp [List.getD_eq_getElem?_getD, List.getElem?_eq_getElem hi]
    have hsum : Finset.sum (Finset.range vs.length)
          (fun k => ((v :: vs).getD (k + 1) 0 - p2.getD (i + (k + 1)) 0) ^ 2)
        = Finset.sum (Finset.range vs.length)
          (fun k => (vs.getD k 0 - p2.getD (i + 1 + k) 0) ^ 2) := by
      apply Finset.sum_congr rfl
      intro k _
      have : i + (k + 1) = i + 1 + k := by omega
      simp [this]
    rw [hsum]
    simp only [List.getD_cons_zero, Nat.add_zero, hget]
    congr 1
    ring

theorem distanceLoop_short (p2 : List ℚ) :
    ∀ (vs : List ℚ) (i : Nat) (r : ℚ), i ≤ p2.length → p2.length < i + vs.length →
      Coordinates.distanceLoop p2 vs i r = .error (.indexOutOfRange p2.length p2.length) := by
  intro vs
  induction vs with
  | nil => intro i r h1 h2; simp at h2; omega
  | cons v vs ih =>
    intro i r h1 h2
    rcases Nat.lt_or_ge i p2.length with hi | hi
    · simp only [Coordinates.distanceLoop, List.getElem?_eq_getElem hi]
      apply ih
      · omega
      · simp at h2; omega
    · have : i = p2.length := by omega
      subst this
      simp [Coordinates.distanceLoop]

theorem Distance_eq_sqEuclid (a b : Coordinates) (h : a.Values.length ≤ b.Values.length) :
    a.Distance b = .ok (sqEuclid a.Values b.Values) := by
  unfold Coordinates.Distance
  rw [distanceLoop_ok b.Values a.Values 0 0 (by omega)]
  simp [sqEuclid]


theorem sqEuclid_nonneg (a b : List ℚ) : 0 ≤ sqEuclid a b := by
  unfold sqEuclid
  exact Finset.sum_nonneg (fun i _ => sq_nonneg _)

theorem sqEuclid_comm (a b : List ℚ) (h : a.length = b.length) :
    sqEuclid a b = sqEuclid b a := by
  unfold sqEuclid
  rw [h]
  apply Finset.sum_congr rfl
  intro i _
  ring

theorem sqEuclid_self (a : List ℚ) : sqEuclid a a = 0 := by
  simp [sqEuclid]

theorem sqEuclid_eq_zero_iff (a b : List ℚ) (h : a.length = b.length) :
    sqEuclid a b = 0 ↔ a = b := by
  constructor
  · intro h0
    unfold sqEuclid at h0
    rw [Finset.sum_eq_zero_iff_of_nonneg (fun i _ => sq_nonneg _)] at h0
    apply List.ext_getElem h
    intro i h1 h2
    have hi := h0 i (Finset.mem_range.mpr h1)
    have hz : a.getD i 0 - b.getD i 0 = 0 := by
      rcases sq_eq_zero_iff.mp hi with hz
      exact hz
    have ha : a.getD i 0 = a[i] := by
      simp [List.getD_eq_getElem?_getD, List.getElem?_eq_getElem h1]
    have hb : b.getD i 0 = b[i] := by
      simp [List.getD_eq_getElem?_getD, List.getElem?_eq_getElem h2]
    rw [ha, hb] at hz
    linarith
  · intro hab
    subst hab
    exact sqEuclid_self a

/-- C4: for Coordinates `a` and `b` of equal length, `a.Distance b` returns the sum over
all dimensions `i` of `(a[i] - b[i])^2`; no square root is taken. -/
theorem Distance_is_sum_of_squares (a b : Coordinates)
    (h : a.Values.length = b.Values.length) :
    a.Distance b = .ok (sqEuclid a.Values b.Values) :=
  Distance_eq_sqEuclid a b (by omega)

theorem Distance_is_sum_of_squares_witness :
    (⟨[1, 2], "a"⟩ : Coordinates).Distance ⟨[4, 6], "b"⟩ = .ok 25 := by
  have h := Distance_is_sum_of_squares ⟨[1, 2], "a"⟩ ⟨[4, 6], "b"⟩ rfl
  rw [h]
  norm_num [sqEuclid, Finset.sum_range_succ]

/-- C5: for equal-length Coordinates `a` and `b`, `a.Distance b` and `b.Distance a` return
the same number; and for every Coordinates `a`, `a.Distance a` returns `0`. -/
theorem Distance_symmetric_and_zero_on_self (a b : Coordinates) :
    (a.Values.length = b.Values.length →
      ∃ d, a.Distance b = .ok d ∧ b.Distance a = .ok d) ∧
    a.Distance a = .ok 0 := by
  constructor
  · intro h
    refine ⟨sqEuclid a.Values b.Values, Distance_eq_sqEuclid a b (by omega), ?_⟩
    rw [Distance_eq_sqEuclid b a (by omega), sqEuclid_comm _ _ h]
  · rw [Distance_eq_sqEuclid a a (le_refl _), sqEuclid_self]

theorem Distance_symmetric_and_zero_on_self_witness :
    (∃ d, (⟨[1, 2], "a"⟩ : Coordinates).Distance ⟨[4, 6], "b"⟩ = .ok d ∧
      (⟨[4, 6], "b"⟩ : Coordinates).Distance ⟨[1, 2], "a"⟩ = .ok d) ∧
    (⟨[1, 2], "a"⟩ : Coordinates).Distance ⟨[1, 2], "a"⟩ = .ok 0 :=
  ⟨(Distance_symmetric_and_zero_on_self ⟨[1, 2], "a"⟩ ⟨[4, 6], "b"⟩).1 rfl,
   (Distance_symmetric_and_zero_on_self ⟨[1, 2], "a"⟩ ⟨[4, 6], "b"⟩).2⟩

/-- C6, counterexample: `a = (1)` is shorter than `b = (1, 2)`, yet `a.Distance b`
returns the number `0` and raises no panic. -/
theorem Distance_shorter_receiver_returns :
    (⟨[1], ""⟩ : Coordinates).Values.length ≠ (⟨[1, 2], ""⟩ : Coordinates).Values.length ∧
    (⟨[1], ""⟩ : Coordinates).Distance ⟨[1, 2], ""⟩ = .ok 0 := by
  constructor
  · decide
  · simp [Coordinates.Distance, Coordinates.distanceLoop]

/-- C6, amended: for Coordinates `a` and `b` of different lengths, `a.Distance b` panics
with an index out of range (index `len(b)` of a slice of length `len(b)`) when `a` is
longer than `b`, and returns the sum of `(a[i] - b[i])^2` over the `len(a)` dimensions
of `a` when `a` is shorter than `b`. -/
theorem Distance_length_mismatch (a b : Coordinates) :
    (b.Values.length < a.Values.length →
      a.Distance b = .error (.indexOutOfRange b.Values.length b.Values.length)) ∧
    (a.Values.length < b.Values.length →
      a.Distance b = .ok (sqEuclid a.Values b.Values)) := by
  constructor
  · intro hlt
    exact distanceLoop_short b.Values a.Values 0 0 (Nat.zero_le _) (by omega)
  · intro hlt
    exact Distance_eq_sqEuclid a b (by omega)

theorem Distance_length_mismatch_witness :
    (⟨[1, 2, 3], ""⟩ : Coordinates).Distance ⟨[1, 2], ""⟩ = .error (.indexOutOfRange 2 2) ∧
    (⟨[1], ""⟩ : Coordinates).Distance ⟨[3, 2], ""⟩ = .ok (sqEuclid [1] [3, 2]) :=
  ⟨(Distance_length_mismatch ⟨[1, 2, 3], ""⟩ ⟨[1, 2], ""⟩).1 (by decide),
   (Distance_length_mismatch ⟨[1], ""⟩ ⟨[3, 2], ""⟩).2 (by decide)⟩


theorem nearestLoop_seen (point : Observation) (f : Cluster → ℚ) :
    ∀ (rest : List Cluster) (i : Nat) (dist : ℚ) (ci : Nat),
      0 ≤ dist →
      (∀ cl ∈ rest, point.Distance cl.Center = .ok (f cl)) →
      (∀ cl ∈ rest, 0 ≤ f cl) →
      ∃ r, Clusters.nearestLoop point rest i dist ci = .ok r ∧
        ((r = ci ∧ ∀ cl ∈ rest, dist ≤ f cl) ∨
         (∃ k, ∃ hk : k < rest.length, r = i + k ∧ f rest[k] < dist ∧
            (∀ cl ∈ rest, f rest[k] ≤ f cl) ∧
            ∀ j, ∀ hj : j < rest.length, j < k → f rest[k] < f rest[j])) := by
  intro rest
  induction rest with
  | nil =>
    intro i dist ci _ _ _
    exact ⟨ci, rfl, Or.inl ⟨rfl, by simp⟩⟩
  | cons cl rest ih =>
    intro i dist ci hdist hf hnn
    have hcl := hf cl (List.mem_cons_self _ _)
    have hf1 : ∀ x ∈ rest, point.Distance x.Center = .ok (f x) :=
      fun x hx => hf x (List.mem_cons_of_mem _ hx)
    have hnn1 : ∀ x ∈ rest, 0 ≤ f x := fun x hx => hnn x (List.mem_cons_of_mem _ hx)
    simp only [Clusters.nearestLoop, hcl]
    by_cases hd : f cl < dist
    · rw [if_pos (Or.inr hd)]
      obtain ⟨r, hr, hcase⟩ := ih (i + 1) (f cl) i (hnn cl (List.mem_cons_self _ _)) hf1 hnn1
      refine ⟨r, hr, Or.inr ?_⟩
      rcases hcase with ⟨hri, hall⟩ | ⟨k, hk, hrk, hlt, hall, hfirst⟩
      · refine ⟨0, by simp, by simpa using hri, by simpa using hd, ?_, ?_⟩
        · intro x hx
          rcases List.mem_cons.mp hx with rfl | hx1
          · simp
          · simpa using hall x hx1
        · intro j _ hj0
          omega
      · refine ⟨k + 1, by simpa using hk, by omega, ?_, ?_, ?_⟩
        · simpa using lt_trans hlt hd
        · intro x hx
          rcases List.mem_cons.mp hx with rfl | hx1
          · simpa using le_of_lt hlt
          · simpa using hall x hx1
        · intro j hj hjk
          cases j with
          | zero => simpa using hlt
          | succ j1 =>
            have hj1 : j1 < rest.length := by simpa using hj
            simpa using hfirst j1 hj1 (by omega)
    · have hcond : ¬ (dist < 0 ∨ f cl < dist) := by
        intro h
        rcases h with h | h
        · exact absurd hdist (not_le.mpr h)
        · exact hd h
      rw [if_neg hcond]
      obtain ⟨r, hr, hcase⟩ := ih (i + 1) dist ci hdist hf1 hnn1
      refine ⟨r, hr, ?_⟩
      rcases hcase with ⟨hri, hall⟩ | ⟨k, hk, hrk, hlt, hall, hfirst⟩
      · left
        refine ⟨hri, ?_⟩
        intro x hx
        rcases List.mem_cons.mp hx with rfl | hx1
        · exact not_lt.mp hd
        · exact hall x hx1
      · right
        refine ⟨k + 1, by simpa using hk, by omega, ?_, ?_, ?_⟩
        · simpa using hlt
        · intro x hx
          rcases List.mem_cons.mp hx with rfl | hx1
          · simpa using le_of_lt (lt_of_lt_of_le hlt (not_lt.mp hd))
          · simpa using hall x hx1
        · intro j hj hjk
          cases j with
          | zero => simpa using lt_of_lt_of_le hlt (not_lt.mp hd)
          | succ j1 =>
            have hj1 : j1 < rest.length := by simpa using hj
            simpa using hfirst j1 hj1 (by omega)

/-- For a non-empty cluster set and a point whose `Distance` to every center returns a
non-negative number, `Nearest` returns the first index whose distance is minimal. -/
theorem Nearest_first_min (cs : Clusters) (point : Observation) (f : Cluster → ℚ)
    (hne : cs ≠ [])
    (hf : ∀ cl ∈ cs, point.Distance cl.Center = .ok (f cl))
    (hnn : ∀ cl ∈ cs, 0 ≤ f cl) :
    ∃ i, ∃ hi : i < cs.length, cs.Nearest point = .ok i ∧
      (∀ cl ∈ cs, f cs[i] ≤ f cl) ∧
      ∀ j, ∀ hj : j < cs.length, j < i → f cs[i] < f cs[j] := by
  cases cs with
  | nil => exact absurd rfl hne
  | cons cl rest =>
    have hcl := hf cl (List.mem_cons_self _ _)
    have h0 := hnn cl (List.mem_cons_self _ _)
    have hf1 : ∀ x ∈ rest, point.Distance x.Center = .ok (f x) :=
      fun x hx => hf x (List.mem_cons_of_mem _ hx)
    have hnn1 : ∀ x ∈ rest, 0 ≤ f x := fun x hx => hnn x (List.mem_cons_of_mem _ hx)
    obtain ⟨r, hr, hcase⟩ := nearestLoop_seen point f rest 1 (f cl) 0 h0 hf1 hnn1
    have hstep : Clusters.Nearest (cl :: rest) point = .ok r := by
      simp only [Clusters.Nearest, Clusters.nearestLoop, hcl]
      rw [if_pos (Or.inl (by norm_num))]
      simpa using hr
    rcases hcase with ⟨hri, hall⟩ | ⟨k, hk, hrk, hlt, hall, hfirst⟩
    · subst hri
      refine ⟨0, by simp, hstep, ?_, ?_⟩
      · intro x hx
        rcases List.mem_cons.mp hx with rfl | hx1
        · simp
        · simpa using hall x hx1
      · intro j _ hj0
        omega
    · have hrk1 : r = k + 1 := by omega
      subst hrk1
      refine ⟨k + 1, by simpa using hk, hstep, ?_, ?_⟩
      · intro x hx
        rcases List.mem_cons.mp hx with rfl | hx1
        · simpa using le_of_lt hlt
        · simpa using hall x hx1
      · intro j hj hjk
        cases j with
        | zero => simpa using hlt
        | succ j1 =>
          have hj1 : j1 < rest.length := by simpa using hj
          simpa using hfirst j1 hj1 (by omega)


/-- The number a `Distance` call returns, `0` when it panics. -/
theorem Distance_value_exists (point : Observation) (cs : Clusters)
    (hok : ∀ cl ∈ cs, ∃ d, point.Distance cl.Center = .ok d ∧ 0 ≤ d) :
    ∃ f : Cluster → ℚ, (∀ cl ∈ cs, point.Distance cl.Center = .ok (f cl)) ∧
      ∀ cl ∈ cs, 0 ≤ f cl := by
  refine ⟨fun cl => match point.Distance cl.Center with
    | .ok d => d
    | .error _ => 0, ?_, ?_⟩
  · intro cl hcl
    obtain ⟨d, hd, _⟩ := hok cl hcl
    simp [hd]
  · intro cl hcl
    obtain ⟨d, hd, h0⟩ := hok cl hcl
    simp [hd, h0]

/-- C1: for a cluster set with at least one cluster and a plain Coordinates point whose
dimensionality equals that of every center, `Nearest` returns an index `i < k` whose
center is at a distance not larger than that of any center `j`, and strictly smaller than
that of every center `j < i` (the first index attaining the minimum). -/
theorem Nearest_plain_coordinates (cs : Clusters) (p : Coordinates)
    (hne : cs ≠ [])
    (hdim : ∀ cl ∈ cs, cl.Center.Values.length = p.Values.length) :
    ∃ i, ∃ hi : i < cs.length, cs.Nearest p.toObservation = .ok i ∧
      ∀ j, ∀ hj : j < cs.length,
        ∃ di dj, p.Distance cs[i].Center = .ok di ∧ p.Distance cs[j].Center = .ok dj ∧
          di ≤ dj ∧ (j < i → di < dj) := by
  have hf : ∀ cl ∈ cs, p.toObservation.Distance cl.Center =
      .ok (sqEuclid p.Values cl.Center.Values) := by
    intro cl hcl
    exact Distance_eq_sqEuclid p cl.Center (by rw [hdim cl hcl])
  obtain ⟨i, hi, hres, hmin, hfirst⟩ :=
    Nearest_first_min cs p.toObservation (fun cl => sqEuclid p.Values cl.Center.Values)
      hne hf (fun cl _ => sqEuclid_nonneg _ _)
  refine ⟨i, hi, hres, ?_⟩
  intro j hj
  refine ⟨_, _, hf _ (List.getElem_mem _), hf _ (List.getElem_mem _),
    hmin _ (List.getElem_mem _), fun hji => hfirst j hj hji⟩

theorem Nearest_plain_coordinates_witness :
    ∃ i, ∃ hi : i < twoCenters.length,
      twoCenters.Nearest (⟨[4], "p"⟩ : Coordinates).toObservation = .ok i ∧
      ∀ j, ∀ hj : j < twoCenters.length,
        ∃ di dj, (⟨[4], "p"⟩ : Coordinates).Distance twoCenters[i].Center = .ok di ∧
          (⟨[4], "p"⟩ : Coordinates).Distance twoCenters[j].Center = .ok dj ∧
          di ≤ dj ∧ (j < i → di < dj) :=
  Nearest_plain_coordinates twoCenters ⟨[4], "p"⟩ (by simp [twoCenters])
    (by simp [twoCenters])

/-- C2, counterexample: the point `signedObservation` computes the distances `-1` and `5`
to the two centers of `twoCenters`; `Nearest` returns index `1`, whose distance `5` is
larger than the distance `-1` of index `0`. -/
theorem Nearest_negative_distance_not_min :
    twoCenters ≠ [] ∧
    twoCenters.Nearest signedObservation = .ok 1 ∧
    signedObservation.Distance (twoCenters.get ⟨1, by decide⟩).Center = .ok 5 ∧
    signedObservation.Distance (twoCenters.get ⟨0, by decide⟩).Center = .ok (-1) ∧
    ¬ ((5 : ℚ) ≤ -1) := by
  refine ⟨by simp [twoCenters], ?_, ?_, ?_, by norm_num⟩
  · norm_num [Clusters.Nearest, Clusters.nearestLoop, twoCenters, signedObservation]
  · norm_num [twoCenters, signedObservation]
  · norm_num [twoCenters, signedObservation]

/-- C2, amended: for a non-empty cluster set and an Observation point whose `Distance` to
every center returns a non-negative number, `Nearest` returns an index `i < k` such that
`point.Distance(center[i]) <= point.Distance(center[j])` for every cluster index `j`. -/
theorem Nearest_min_of_nonneg_distances (cs : Clusters) (point : Observation)
    (hne : cs ≠ [])
    (hok : ∀ cl ∈ cs, ∃ d, point.Distance cl.Center = .ok d ∧ 0 ≤ d) :
    ∃ i, ∃ hi : i < cs.length, cs.Nearest point = .ok i ∧
      ∀ j, ∀ hj : j < cs.length,
        ∃ di dj, point.Distance cs[i].Center = .ok di ∧
          point.Distance cs[j].Center = .ok dj ∧ di ≤ dj := by
  obtain ⟨f, hf, hnn⟩ := Distance_value_exists point cs hok
  obtain ⟨i, hi, hres, hmin, _⟩ := Nearest_first_min cs point f hne hf hnn
  refine ⟨i, hi, hres, ?_⟩
  intro j hj
  exact ⟨_, _, hf _ (List.getElem_mem _), hf _ (List.getElem_mem _),
    hmin _ (List.getElem_mem _)⟩

theorem Nearest_min_of_nonneg_distances_witness :
    ∃ i, ∃ hi : i < twoCenters.length,
      twoCenters.Nearest (⟨[4], "p"⟩ : Coordinates).toObservation = .ok i ∧
      ∀ j, ∀ hj : j < twoCenters.length,
        ∃ di dj,
          (⟨[4], "p"⟩ : Coordinates).toObservation.Distance twoCenters[i].Center = .ok di ∧
          (⟨[4], "p"⟩ : Coordinates).toObservation.Distance twoCenters[j].Center = .ok dj ∧
          di ≤ dj :=
  Nearest_min_of_nonneg_distances twoCenters (⟨[4], "p"⟩ : Coordinates).toObservation
    (by simp [twoCenters])
    (by
      intro cl hcl
      refine ⟨sqEuclid [4] cl.Center.Values, ?_, sqEuclid_nonneg _ _⟩
      simp only [twoCenters, List.mem_cons, List.mem_singleton, List.not_mem_nil, or_false] at hcl
      rcases hcl with rfl | rfl
      · exact Distance_eq_sqEuclid ⟨[4], "p"⟩ ⟨[0], ""⟩ (by simp)
      · exact Distance_eq_sqEuclid ⟨[4], "p"⟩ ⟨[6], ""⟩ (by simp))


theorem centerInner_ok :
    ∀ (vs : List ℚ) (j : Nat) (cc : List ℚ), j + vs.length ≤ cc.length →
      ∃ r, Observations.centerInner vs j cc = .ok r ∧ r.length = cc.length ∧
        ∀ k, r.getD k 0 = cc.getD k 0 + (if j ≤ k then vs.getD (k - j) 0 else 0) := by
  intro vs
  induction vs with
  | nil =>
    intro j cc _
    exact ⟨cc, rfl, rfl, by simp⟩
  | cons v vs ih =>
    intro j cc h
    have hj : j < cc.length := by simp at h; omega
    obtain ⟨r, hr, hlen, hval⟩ := ih (j + 1) (cc.set j (cc[j] + v))
      (by simp at h ⊢; omega)
    refine ⟨r, ?_, by simpa using hlen, ?_⟩
    · simp only [Observations.centerInner, List.getElem?_eq_getElem hj]
      exact hr
    · intro k
      rw [hval k]
      simp only [List.getD_eq_getElem?_getD, List.getElem?_set]
      by_cases hjk : j = k
      · subst hjk
        simp [hj]
      · by_cases hlt : j ≤ k
        · have h1 : j + 1 ≤ k := by omega
          obtain ⟨m, hm⟩ : ∃ m, k - j = m + 1 := ⟨k - j - 1, by omega⟩
          have h2 : k - (j + 1) = m := by omega
          simp [hjk, hlt, h1, hm, h2]
        · have h1 : ¬ (j + 1 ≤ k) := by omega
          simp [hjk, hlt, h1]

theorem centerOuter_ok :
    ∀ (ps : List Observation) (cc : List ℚ),
      (∀ o ∈ ps, o.Coordinates.Values.length ≤ cc.length) →
      ∃ r, Observations.centerOuter ps cc = .ok r ∧ r.length = cc.length ∧
        ∀ k, r.getD k 0 =
          cc.getD k 0 + (ps.map (fun o => o.Coordinates.Values.getD k 0)).sum := by
  intro ps
  induction ps with
  | nil =>
    intro cc _
    exact ⟨cc, rfl, rfl, by simp⟩
  | cons p ps ih =>
    intro cc h
    obtain ⟨r1, hr1, hlen1, hval1⟩ :=
      centerInner_ok p.Coordinates.Values 0 cc (by simpa using h p (List.mem_cons_self _ _))
    obtain ⟨r, hr, hlen, hval⟩ := ih r1 (by
      intro o ho
      rw [hlen1]
      exact h o (List.mem_cons_of_mem _ ho))
    refine ⟨r, ?_, by rw [hlen, hlen1], ?_⟩
    · simp only [Observations.centerOuter, hr1]
      exact hr
    · intro k
      rw [hval k, hval1 k]
      simp
      ring

/-- The result of `Center` on a non-empty set none of whose members is longer than the
first one. -/
theorem Center_ok (c : Observations) (c0 : Observation) (rest : List Observation)
    (hc : c = c0 :: rest)
    (hlen : ∀ o ∈ c, o.Coordinates.Values.length ≤ c0.Coordinates.Values.length) :
    ∃ m : Coordinates, c.Center = .ok (m, none) ∧
      m.Values.length = c0.Coordinates.Values.length ∧
      ∀ j, j < c0.Coordinates.Values.length → m.Values[j]? = some (componentMean c j) := by
  subst hc
  obtain ⟨r, hr, hrlen, hval⟩ := centerOuter_ok (c0 :: rest)
    (List.replicate c0.Coordinates.Values.length 0) (by simpa using hlen)
  refine ⟨{ Values := r.map (fun v => v / ((c0 :: rest).length : ℚ)), Label := "" }, ?_, ?_, ?_⟩
  · simp only [Observations.Center, hr]
  · simpa using hrlen
  · intro j hj
    have hjr : j < r.length := by rw [hrlen]; simpa using hj
    have hv := hval j
    rw [List.getD_eq_getElem?_getD, List.getD_eq_getElem?_getD,
      List.getElem?_eq_getElem hjr, List.getElem?_replicate_of_lt hj] at hv
    simp only [Option.getD_some, zero_add] at hv
    simp only [List.getElem?_map, List.getElem?_eq_getElem hjr, Option.map_some', componentMean]
    rw [hv]


/-- C3: for a non-empty set of Observations whose members all have dimensionality `D`,
`Center` returns no error (and does not panic) and a Coordinates of length `D` whose
`j`-th component is the sum of the `j`-th components of all members divided by the number
of members, for every `j < D`. -/
theorem Center_is_componentwise_mean (c : Observations) (D : Nat)
    (hne : c ≠ [])
    (hdim : ∀ o ∈ c, o.Coordinates.Values.length = D) :
    ∃ m : Coordinates, c.Center = .ok (m, none) ∧ m.Values.length = D ∧
      ∀ j, j < D → m.Values[j]? = some (componentMean c j) := by
  cases c with
  | nil => exact absurd rfl hne
  | cons c0 rest =>
    have h0 : c0.Coordinates.Values.length = D := hdim c0 (List.mem_cons_self _ _)
    obtain ⟨m, hm, hlen, hval⟩ := Center_ok (c0 :: rest) c0 rest rfl
      (fun o ho => by rw [hdim o ho, h0])
    exact ⟨m, hm, by rw [hlen, h0], fun j hj => hval j (by rw [h0]; exact hj)⟩

theorem Center_is_componentwise_mean_witness :
    ∃ m : Coordinates,
      Observations.Center [(⟨[0, 0], "a"⟩ : Coordinates).toObservation,
        (⟨[2, 4], "b"⟩ : Coordinates).toObservation] = .ok (m, none) ∧
      m.Values.length = 2 ∧
      ∀ j, j < 2 → m.Values[j]? =
        some (componentMean [(⟨[0, 0], "a"⟩ : Coordinates).toObservation,
          (⟨[2, 4], "b"⟩ : Coordinates).toObservation] j) :=
  Center_is_componentwise_mean _ 2 (by simp)
    (by
      intro o ho
      simp only [List.mem_cons, List.mem_singleton, List.not_mem_nil, or_false] at ho
      rcases ho with rfl | rfl <;> rfl)


theorem averageDistanceLoop_plain (o : Coordinates) :
    ∀ (observations : List Observation) (d : ℚ) (l : Nat),
      (∀ m ∈ observations, m.Coordinates.Values.length = o.Values.length) →
      averageDistanceLoop o.toObservation observations d l =
        .ok (d + ((distinctMembers o observations).map
              (fun m => sqEuclid o.Values m.Coordinates.Values)).sum,
            l + (distinctMembers o observations).length) := by
  intro observations
  induction observations with
  | nil =>
    intro d l _
    simp [averageDistanceLoop, distinctMembers]
  | cons m rest ih =>
    intro d l h
    have hm : m.Coordinates.Values.length = o.Values.length := h m (List.mem_cons_self _ _)
    have hrest : ∀ x ∈ rest, x.Coordinates.Values.length = o.Values.length :=
      fun x hx => h x (List.mem_cons_of_mem _ hx)
    have hdist : o.toObservation.Distance m.Coordinates =
        .ok (sqEuclid o.Values m.Coordinates.Values) :=
      Distance_eq_sqEuclid o m.Coordinates (by omega)
    simp only [averageDistanceLoop, hdist]
    by_cases hz : sqEuclid o.Values m.Coordinates.Values = 0
    · have heq : m.Coordinates.Values = o.Values :=
        ((sqEuclid_eq_zero_iff _ _ hm.symm).mp hz).symm
      rw [if_pos hz, ih d l hrest]
      simp [distinctMembers, heq]
    · have hne : m.Coordinates.Values ≠ o.Values := by
        intro heq
        exact hz ((sqEuclid_eq_zero_iff _ _ hm.symm).mpr heq.symm)
      rw [if_neg hz, ih _ _ hrest]
      simp only [distinctMembers, List.filter_cons, hne, ne_eq, not_false_eq_true,
        decide_True, if_true, List.map_cons, List.sum_cons, List.length_cons]
      congr 2
      · ring
      · omega

theorem AverageDistance_plain (o : Coordinates) (observations : Observations)
    (hdim : ∀ m ∈ observations, m.Coordinates.Values.length = o.Values.length) :
    AverageDistance o.toObservation observations =
      .ok (averageOverDistinct o observations) := by
  unfold AverageDistance
  rw [averageDistanceLoop_plain o observations 0 0 hdim]
  simp only [zero_add, averageOverDistinct]
  by_cases hlen : (distinctMembers o observations).length = 0
  · simp [hlen]
  · simp [hlen]

theorem neighbourLoop_chosen (point : Observation) (e : Int) (f : Cluster → ℚ) :
    ∀ (rest : List Cluster) (i : Nat) (nc : Int) (d : ℚ),
      0 ≤ nc →
      (∀ cl ∈ rest, AverageDistance point cl.Observations = .ok (f cl)) →
      ∃ r, Clusters.neighbourLoop point e rest i nc d = .ok r ∧
        ((r = (nc, d) ∧
            ∀ k, ∀ hk : k < rest.length, ((i + k : Nat) : Int) ≠ e → d ≤ f rest[k]) ∨
         (∃ k, ∃ hk : k < rest.length, ((i + k : Nat) : Int) ≠ e ∧
            r = (((i + k : Nat) : Int), f rest[k]) ∧ f rest[k] < d ∧
            (∀ j, ∀ hj : j < rest.length, ((i + j : Nat) : Int) ≠ e → f rest[k] ≤ f rest[j]) ∧
            ∀ j, ∀ hj : j < rest.length, j < k → ((i + j : Nat) : Int) ≠ e →
              f rest[k] < f rest[j])) := by
  intro rest
  induction rest with
  | nil =>
    intro i nc d _ _
    refine ⟨(nc, d), rfl, Or.inl ⟨rfl, ?_⟩⟩
    intro k hk
    simp at hk
  | cons cl rest ih =>
    intro i nc d hnc hf
    have hcl := hf cl (List.mem_cons_self _ _)
    have hf1 : ∀ x ∈ rest, AverageDistance point x.Observations = .ok (f x) :=
      fun x hx => hf x (List.mem_cons_of_mem _ hx)
    by_cases he : (i : Int) = e
    · obtain ⟨r, hr, hcase⟩ := ih (i + 1) nc d hnc hf1
      refine ⟨r, ?_, ?_⟩
      · simp only [Clusters.neighbourLoop, if_pos he]
        exact hr
      · rcases hcase with ⟨hrn, hall⟩ | ⟨k, hk, hke, hrk, hlt, hall, hfirst⟩
        · left
          refine ⟨hrn, ?_⟩
          intro k hk hne
          cases k with
          | zero => exact absurd (by simpa using he) hne
          | succ k1 =>
            have hk1 : k1 < rest.length := by simpa using hk
            have := hall k1 hk1 (by intro h; apply hne; rw [← h]; congr 1; omega)
            simpa using this
        · right
          refine ⟨k + 1, by simpa using hk, ?_, ?_, ?_, ?_, ?_⟩
          · intro h; apply hke; rw [← h]; congr 1; omega
          · have hidx : i + (k + 1) = i + 1 + k := by omega
            simpa [hidx] using hrk
          · simpa using hlt
          · intro j hj hne
            cases j with
            | zero => exact absurd (by simpa using he) hne
            | succ j1 =>
              have hj1 : j1 < rest.length := by simpa using hj
              have := hall j1 hj1 (by intro h; apply hne; rw [← h]; congr 1; omega)
              simpa using this
          · intro j hj hjk hne
            cases j with
            | zero => exact absurd (by simpa using he) hne
            | succ j1 =>
              have hj1 : j1 < rest.length := by simpa using hj
              have := hfirst j1 hj1 (by omega)
                (by intro h; apply hne; rw [← h]; congr 1; omega)
              simpa using this
    · by_cases hd : f cl < d
      · obtain ⟨r, hr, hcase⟩ := ih (i + 1) (i : Int) (f cl) (Int.ofNat_nonneg i) hf1
        refine ⟨r, ?_, Or.inr ?_⟩
        · simp only [Clusters.neighbourLoop, if_neg he, hcl]
          rw [if_pos (Or.inr hd)]
          exact hr
        · rcases hcase with ⟨hrn, hall⟩ | ⟨k, hk, hke, hrk, hlt, hall, hfirst⟩
          · refine ⟨0, by simp, by simpa using he, by simpa using hrn, by simpa using hd,
              ?_, ?_⟩
            · intro j hj hne
              cases j with
              | zero => simp
              | succ j1 =>
                have hj1 : j1 < rest.length := by simpa using hj
                have := hall j1 hj1 (by intro h; apply hne; rw [← h]; congr 1; omega)
                simpa using this
            · intro j _ hj0
              omega
          · refine ⟨k + 1, by simpa using hk, ?_, ?_, ?_, ?_, ?_⟩
            · intro h; apply hke; rw [← h]; congr 1; omega
            · have hidx : i + (k + 1) = i + 1 + k := by omega
              simpa [hidx] using hrk
            · simpa using lt_trans hlt hd
            · intro j hj hne
              cases j with
              | zero => simpa using le_of_lt hlt
              | succ j1 =>
                have hj1 : j1 < rest.length := by simpa using hj
                have := hall j1 hj1 (by intro h; apply hne; rw [← h]; congr 1; omega)
                simpa using this
            · intro j hj hjk hne
              cases j with
              | zero => simpa using hlt
              | succ j1 =>
                have hj1 : j1 < rest.length := by simpa using hj
                have := hfirst j1 hj1 (by omega)
                  (by intro h; apply hne; rw [← h]; congr 1; omega)
                simpa using this
      · have hcond : ¬ (nc < 0 ∨ f cl < d) := by
          intro h
          rcases h with h | h
          · omega
          · exact hd h
        obtain ⟨r, hr, hcase⟩ := ih (i + 1) nc d hnc hf1
        refine ⟨r, ?_, ?_⟩
        · simp only [Clusters.neighbourLoop, if_neg he, hcl]
          rw [if_neg hcond]
          exact hr
        · rcases hcase with ⟨hrn, hall⟩ | ⟨k, hk, hke, hrk, hlt, hall, hfirst⟩
          · left
            refine ⟨hrn, ?_⟩
            intro k hk hne
            cases k with
            | zero => simpa using not_lt.mp hd
            | succ k1 =>
              have hk1 : k1 < rest.length := by simpa using hk
              have := hall k1 hk1 (by intro h; apply hne; rw [← h]; congr 1; omega)
              simpa using this
          · right
            refine ⟨k + 1, by simpa using hk, ?_, ?_, ?_, ?_, ?_⟩
            · intro h; apply hke; rw [← h]; congr 1; omega
            · have hidx : i + (k + 1) = i + 1 + k := by omega
              simpa [hidx] using hrk
            · simpa using hlt
            · intro j hj hne
              cases j with
              | zero => simpa using le_of_lt (lt_of_lt_of_le hlt (not_lt.mp hd))
              | succ j1 =>
                have hj1 : j1 < rest.length := by simpa using hj
                have := hall j1 hj1 (by intro h; apply hne; rw [← h]; congr 1; omega)
                simpa using this
            · intro j hj hjk hne
              cases j with
              | zero => simpa using lt_of_lt_of_le hlt (not_lt.mp hd)
              | succ j1 =>
                have hj1 : j1 < rest.length := by simpa using hj
                have := hfirst j1 hj1 (by omega)
                  (by intro h; apply hne; rw [← h]; congr 1; omega)
                simpa using this


theorem neighbourLoop_fresh (point : Observation) (e : Int) (f : Cluster → ℚ) :
    ∀ (rest : List Cluster) (i : Nat) (nc : Int) (d : ℚ),
      nc < 0 →
      (∀ cl ∈ rest, AverageDistance point cl.Observations = .ok (f cl)) →
      ∃ r, Clusters.neighbourLoop point e rest i nc d = .ok r ∧
        ((r = (nc, d) ∧ ∀ k, k < rest.length → ((i + k : Nat) : Int) = e) ∨
         (∃ k, ∃ hk : k < rest.length, ((i + k : Nat) : Int) ≠ e ∧
            r = (((i + k : Nat) : Int), f rest[k]) ∧
            (∀ j, ∀ hj : j < rest.length, ((i + j : Nat) : Int) ≠ e → f rest[k] ≤ f rest[j]) ∧
            ∀ j, ∀ hj : j < rest.length, j < k → ((i + j : Nat) : Int) ≠ e →
              f rest[k] < f rest[j])) := by
  intro rest
  induction rest with
  | nil =>
    intro i nc d _ _
    refine ⟨(nc, d), rfl, Or.inl ⟨rfl, ?_⟩⟩
    intro k hk
    simp at hk
  | cons cl rest ih =>
    intro i nc d hnc hf
    have hcl := hf cl (List.mem_cons_self _ _)
    have hf1 : ∀ x ∈ rest, AverageDistance point x.Observations = .ok (f x) :=
      fun x hx => hf x (List.mem_cons_of_mem _ hx)
    by_cases he : (i : Int) = e
    · obtain ⟨r, hr, hcase⟩ := ih (i + 1) nc d hnc hf1
      refine ⟨r, ?_, ?_⟩
      · simp only [Clusters.neighbourLoop, if_pos he]
        exact hr
      · rcases hcase with ⟨hrn, hall⟩ | ⟨k, hk, hke, hrk, hall, hfirst⟩
        · left
          refine ⟨hrn, ?_⟩
          intro k hk
          cases k with
          | zero => simpa using he
          | succ k1 =>
            have hk1 : k1 < rest.length := by simpa using hk
            rw [← hall k1 hk1]
            congr 1
            omega
        · right
          refine ⟨k + 1, by simpa using hk, ?_, ?_, ?_, ?_⟩
          · intro h; apply hke; rw [← h]; congr 1; omega
          · have hidx : i + (k + 1) = i + 1 + k := by omega
            simpa [hidx] using hrk
          · intro j hj hne
            cases j with
            | zero => exact absurd (by simpa using he) hne
            | succ j1 =>
              have hj1 : j1 < rest.length := by simpa using hj
              have := hall j1 hj1 (by intro h; apply hne; rw [← h]; congr 1; omega)
              simpa using this
          · intro j hj hjk hne
            cases j with
            | zero => exact absurd (by simpa using he) hne
            | succ j1 =>
              have hj1 : j1 < rest.length := by simpa using hj
              have := hfirst j1 hj1 (by omega)
                (by intro h; apply hne; rw [← h]; congr 1; omega)
              simpa using this
    · obtain ⟨r, hr, hcase⟩ :=
        neighbourLoop_chosen point e f rest (i + 1) (i : Int) (f cl) (Int.ofNat_nonneg i) hf1
      refine ⟨r, ?_, Or.inr ?_⟩
      · simp only [Clusters.neighbourLoop, if_neg he, hcl]
        rw [if_pos (Or.inl hnc)]
        exact hr
      · rcases hcase with ⟨hrn, hall⟩ | ⟨k, hk, hke, hrk, hlt, hall, hfirst⟩
        · refine ⟨0, by simp, by simpa using he, by simpa using hrn, ?_, ?_⟩
          · intro j hj hne
            cases j with
            | zero => simp
            | succ j1 =>
              have hj1 : j1 < rest.length := by simpa using hj
              have := hall j1 hj1 (by intro h; apply hne; rw [← h]; congr 1; omega)
              simpa using this
          · intro j _ hj0
            omega
        · refine ⟨k + 1, by simpa using hk, ?_, ?_, ?_, ?_⟩
          · intro h; apply hke; rw [← h]; congr 1; omega
          · have hidx : i + (k + 1) = i + 1 + k := by omega
            simpa [hidx] using hrk
          · intro j hj hne
            cases j with
            | zero => simpa using le_of_lt hlt
            | succ j1 =>
              have hj1 : j1 < rest.length := by simpa using hj
              have := hall j1 hj1 (by intro h; apply hne; rw [← h]; congr 1; omega)
              simpa using this
          · intro j hj hjk hne
            cases j with
            | zero => simpa using hlt
            | succ j1 =>
              have hj1 : j1 < rest.length := by simpa using hj
              have := hfirst j1 hj1 (by omega)
                (by intro h; apply hne; rw [← h]; congr 1; omega)
              simpa using this

/-- C7: for a cluster set with `k >= 2` clusters, an index `excludeIndex` and a plain
Coordinates point whose dimensionality matches all cluster members (in particular for
`0 <= excludeIndex < k`), `Neighbour` returns a pair `(i, d)` with `0 <= i < k`,
`i != excludeIndex`, `d` the `AverageDistance` from the point to the members of cluster
`i`, `d` not larger than the `AverageDistance` to the members of any cluster
`j != excludeIndex`, and strictly smaller than that of every such `j < i`. -/
theorem Neighbour_first_min_average (cs : Clusters) (p : Coordinates) (excludeIndex : Int)
    (hk : 2 ≤ cs.length)
    (hdim : ∀ cl ∈ cs, ∀ m ∈ cl.Observations,
      m.Coordinates.Values.length = p.Values.length) :
    ∃ i, ∃ hi : i < cs.length, ∃ d,
      cs.Neighbour p.toObservation excludeIndex = .ok ((i : Int), d) ∧
      (i : Int) ≠ excludeIndex ∧
      AverageDistance p.toObservation cs[i].Observations = .ok d ∧
      ∀ j, ∀ hj : j < cs.length, (j : Int) ≠ excludeIndex →
        ∃ dj, AverageDistance p.toObservation cs[j].Observations = .ok dj ∧
          d ≤ dj ∧ (j < i → d < dj) := by
  have hf : ∀ cl ∈ cs, AverageDistance p.toObservation cl.Observations =
      .ok (averageOverDistinct p cl.Observations) :=
    fun cl hcl => AverageDistance_plain p cl.Observations (hdim cl hcl)
  obtain ⟨r, hr, hcase⟩ := neighbourLoop_fresh p.toObservation excludeIndex
    (fun cl => averageOverDistinct p cl.Observations) cs 0 (-1) 0 (by norm_num) hf
  rcases hcase with ⟨_, hall⟩ | ⟨i, hi, hie, hri, hall, hfirst⟩
  · have h0 := hall 0 (by omega)
    have h1 := hall 1 (by omega)
    simp at h0 h1
    omega
  · refine ⟨i, hi, averageOverDistinct p cs[i].Observations, ?_, by simpa using hie,
      hf _ (List.getElem_mem _), ?_⟩
    · rw [Clusters.Neighbour, hr, hri]
      simp
    · intro j hj hje
      refine ⟨averageOverDistinct p cs[j].Observations, hf _ (List.getElem_mem _),
        hall j hj (by simpa using hje), fun hji => hfirst j hj hji (by simpa using hje)⟩


theorem Neighbour_first_min_average_witness :
    ∃ i, ∃ hi : i < pairOfClusters.length, ∃ d,
      pairOfClusters.Neighbour (⟨[0, 0], "p"⟩ : Coordinates).toObservation 0 =
        .ok ((i : Int), d) ∧
      (i : Int) ≠ 0 ∧
      AverageDistance (⟨[0, 0], "p"⟩ : Coordinates).toObservation
        pairOfClusters[i].Observations = .ok d ∧
      ∀ j, ∀ hj : j < pairOfClusters.length, (j : Int) ≠ 0 →
        ∃ dj, AverageDistance (⟨[0, 0], "p"⟩ : Coordinates).toObservation
            pairOfClusters[j].Observations = .ok dj ∧
          d ≤ dj ∧ (j < i → d < dj) :=
  Neighbour_first_min_average pairOfClusters ⟨[0, 0], "p"⟩ 0
    (by simp [pairOfClusters])
    (by
      intro cl hcl m hm
      simp only [pairOfClusters, List.mem_cons, List.mem_singleton, List.not_mem_nil,
        or_false] at hcl
      rcases hcl with rfl | rfl
      · simp only [List.mem_cons, List.mem_singleton, List.not_mem_nil, or_false] at hm
        rcases hm with rfl | rfl <;> rfl
      · simp only [List.mem_cons, List.mem_singleton, List.not_mem_nil, or_false] at hm
        rcases hm with rfl | rfl <;> rfl)

/-- C8, counterexample: on the empty cluster set (fewer than 2 clusters) `Neighbour`
returns the pair `(-1, 0)`; it does not fail. -/
theorem Neighbour_empty_set_returns :
    (([] : Clusters).length < 2) ∧
    Clusters.Neighbour [] (⟨[0, 0], "p"⟩ : Coordinates).toObservation 0 = .ok (-1, 0) := by
  constructor
  · decide
  · rfl

/-- C8, amended: on a cluster set with fewer than 2 clusters `Neighbour` returns a pair and
raises no error of its own. With zero clusters, or with one cluster and
`excludeIndex = 0`, it returns `(-1, 0)`; with one cluster and `excludeIndex != 0` it
returns `(0, AverageDistance(point, members of cluster 0))`, and panics only where that
`AverageDistance` call panics. -/
theorem Neighbour_fewer_than_two_clusters (point : Observation) (cl : Cluster)
    (excludeIndex : Int) :
    Clusters.Neighbour [] point excludeIndex = .ok (-1, 0) ∧
    (excludeIndex = 0 → Clusters.Neighbour [cl] point excludeIndex = .ok (-1, 0)) ∧
    (excludeIndex ≠ 0 →
      Clusters.Neighbour [cl] point excludeIndex =
        match AverageDistance point cl.Observations with
        | .error err => .error err
        | .ok d => .ok (0, d)) := by
  refine ⟨rfl, ?_, ?_⟩
  · intro h
    subst h
    simp [Clusters.Neighbour, Clusters.neighbourLoop]
  · intro h
    have h0 : ¬ (((0 : Nat) : Int) = excludeIndex) := by
      intro h1
      exact h (by simpa using h1.symm)
    simp only [Clusters.Neighbour, Clusters.neighbourLoop, if_neg h0]
    cases AverageDistance point cl.Observations with
    | error err => rfl
    | ok d => simp [Clusters.neighbourLoop]

theorem Neighbour_fewer_than_two_clusters_witness :
    Clusters.Neighbour [⟨⟨[0, 0], ""⟩, originAndFar⟩]
        (⟨[0, 0], "p"⟩ : Coordinates).toObservation 0 = .ok (-1, 0) ∧
    Clusters.Neighbour [⟨⟨[0, 0], ""⟩, originAndFar⟩]
        (⟨[0, 0], "p"⟩ : Coordinates).toObservation 1 =
      match AverageDistance (⟨[0, 0], "p"⟩ : Coordinates).toObservation originAndFar with
      | .error err => .error err
      | .ok d => .ok (0, d) :=
  ⟨(Neighbour_fewer_than_two_clusters (⟨[0, 0], "p"⟩ : Coordinates).toObservation
      ⟨⟨[0, 0], ""⟩, originAndFar⟩ 0).2.1 rfl,
   (Neighbour_fewer_than_two_clusters (⟨[0, 0], "p"⟩ : Coordinates).toObservation
      ⟨⟨[0, 0], ""⟩, originAndFar⟩ 1).2.2 (by decide)⟩


theorem resetLoop_spec :
    ∀ (n i : Nat) (cs : Clusters), i + n = cs.length →
      (Clusters.resetLoop n i cs).length = cs.length ∧
      ∀ k, (Clusters.resetLoop n i cs)[k]? =
        if i ≤ k then cs[k]?.map (fun cl => { cl with Observations := [] }) else cs[k]? := by
  intro n
  induction n with
  | zero =>
    intro i cs h
    refine ⟨rfl, ?_⟩
    intro k
    by_cases hik : i ≤ k
    · have hk : cs.length ≤ k := by omega
      simp [Clusters.resetLoop, hik, List.getElem?_eq_none hk]
    · simp [Clusters.resetLoop, hik]
  | succ n ih =>
    intro i cs h
    have hi : i < cs.length := by omega
    obtain ⟨hlen, hval⟩ := ih (i + 1) (cs.set i { cs[i] with Observations := [] })
      (by simp; omega)
    simp only [Clusters.resetLoop, List.getElem?_eq_getElem hi]
    refine ⟨by simpa using hlen, ?_⟩
    intro k
    rw [hval k, List.getElem?_set]
    by_cases hik : i = k
    · subst hik
      simp [hi]
    · by_cases hle : i ≤ k
      · have h1 : i + 1 ≤ k := by omega
        simp [hik, hle, h1]
      · have h1 : ¬ (i + 1 ≤ k) := by omega
        simp [hik, hle, h1]

theorem Reset_eq_map (cs : Clusters) :
    cs.Reset = cs.map (fun cl => { cl with Observations := [] }) := by
  obtain ⟨_, hval⟩ := resetLoop_spec cs.length 0 cs (by omega)
  apply List.ext_getElem?
  intro k
  rw [Clusters.Reset, hval k]
  simp

theorem recenterLoop_spec (g : Cluster → Cluster) :
    ∀ (n i : Nat) (cs : Clusters), i + n = cs.length →
      (∀ k cl, i ≤ k → cs[k]? = some cl → cl.Recenter = .ok (g cl)) →
      ∃ r, Clusters.recenterLoop n i cs = .ok r ∧ r.length = cs.length ∧
        ∀ k, r[k]? = if i ≤ k then cs[k]?.map g else cs[k]? := by
  intro n
  induction n with
  | zero =>
    intro i cs h _
    refine ⟨cs, rfl, rfl, ?_⟩
    intro k
    by_cases hik : i ≤ k
    · have hk : cs.length ≤ k := by omega
      simp [hik, List.getElem?_eq_none hk]
    · simp [hik]
  | succ n ih =>
    intro i cs h hg
    have hi : i < cs.length := by omega
    have hci : cs[i].Recenter = .ok (g cs[i]) :=
      hg i cs[i] (le_refl _) (List.getElem?_eq_getElem hi)
    obtain ⟨r, hr, hlen, hval⟩ := ih (i + 1) (cs.set i (g cs[i])) (by simp; omega) (by
      intro k cl hk hcl
      rw [List.getElem?_set_ne (by omega)] at hcl
      exact hg k cl (by omega) hcl)
    refine ⟨r, ?_, by simpa using hlen, ?_⟩
    · simp only [Clusters.recenterLoop, List.getElem?_eq_getElem hi, hci]
      exact hr
    · intro k
      rw [hval k, List.getElem?_set]
      by_cases hik : i = k
      · subst hik
        simp [hi]
      · by_cases hle : i ≤ k
        · have h1 : i + 1 ≤ k := by omega
          simp [hik, hle, h1]
        · have h1 : ¬ (i + 1 ≤ k) := by omega
          simp [hik, hle, h1]

/-- When every cluster's own `Recenter` returns, `Clusters.Recenter` returns the cluster
set in which each cluster is replaced by its own recentered version. -/
theorem Recenter_eq_map (g : Cluster → Cluster) (cs : Clusters)
    (hg : ∀ cl ∈ cs, cl.Recenter = .ok (g cl)) :
    cs.Recenter = .ok (cs.map g) := by
  obtain ⟨r, hr, _, hval⟩ := recenterLoop_spec g cs.length 0 cs (by omega) (by
    intro k cl _ hcl
    exact hg cl (List.getElem?_mem hcl))
  rw [Clusters.Recenter, hr]
  congr 1
  apply List.ext_getElem?
  intro k
  rw [hval k]
  simp

theorem Cluster_Recenter_empty (cl : Cluster) (h : cl.Observations = []) :
    cl.Recenter = .ok cl := by
  simp [Cluster.Recenter, h, Observations.Center]

/-- C10: `Cluster.Recenter` on a cluster whose member sequence is empty returns the
cluster unchanged (same center, still no members); and for every cluster set, `Reset`
followed by `Clusters.Recenter` returns a cluster set of the same length in which every
cluster has the center it had before the two calls. -/
theorem Recenter_without_members_keeps_center (cl : Cluster) (cs : Clusters) :
    (cl.Observations = [] → cl.Recenter = .ok cl) ∧
    ∃ r, cs.Reset.Recenter = .ok r ∧ r.length = cs.length ∧
      r.map (fun x => x.Center) = cs.map (fun x => x.Center) ∧
      ∀ x ∈ r, x.Observations = [] := by
  refine ⟨Cluster_Recenter_empty cl, cs.Reset, ?_, ?_, ?_, ?_⟩
  · have h := Recenter_eq_map id cs.Reset (by
      intro x hx
      apply Cluster_Recenter_empty
      rw [Reset_eq_map] at hx
      obtain ⟨y, _, rfl⟩ := List.mem_map.mp hx
      rfl)
    simpa using h
  · simp [Reset_eq_map]
  · simp [Reset_eq_map]
  · intro x hx
    rw [Reset_eq_map] at hx
    obtain ⟨y, _, rfl⟩ := List.mem_map.mp hx
    rfl

theorem Recenter_without_members_keeps_center_witness :
    Cluster.Recenter ⟨⟨[7, 8], "c"⟩, []⟩ = .ok ⟨⟨[7, 8], "c"⟩, []⟩ :=
  (Recenter_without_members_keeps_center ⟨⟨[7, 8], "c"⟩, []⟩ pairOfClusters).1 rfl


/-- C12: `Reset` returns a cluster set with the same number of clusters, in which every
cluster has no members and, position by position, the center it had before the call. -/
theorem Reset_clears_members_keeps_centers (cs : Clusters) :
    cs.Reset.length = cs.length ∧
    (∀ cl ∈ cs.Reset, cl.Observations = []) ∧
    cs.Reset.map (fun cl => cl.Center) = cs.map (fun cl => cl.Center) := by
  rw [Reset_eq_map]
  refine ⟨by simp, ?_, by simp⟩
  intro cl hcl
  obtain ⟨y, _, rfl⟩ := List.mem_map.mp hcl
  rfl

theorem Cluster_Recenter_members (cl : Cluster) (c0 : Observation) (rest : List Observation)
    (hc : cl.Observations = c0 :: rest)
    (hlen : ∀ o ∈ cl.Observations,
      o.Coordinates.Values.length ≤ c0.Coordinates.Values.length) :
    ∃ m : Coordinates, cl.Observations.Center = .ok (m, none) ∧
      cl.Recenter = .ok { cl with Center := m } ∧
      m.Values.length = c0.Coordinates.Values.length ∧
      ∀ j, j < c0.Coordinates.Values.length →
        m.Values[j]? = some (componentMean cl.Observations j) := by
  obtain ⟨m, hm, hmlen, hval⟩ := Center_ok cl.Observations c0 rest hc hlen
  refine ⟨m, hm, ?_, hmlen, hval⟩
  simp only [Cluster.Recenter, hm]

/-- C11: for a cluster set in which the members of each cluster have one dimensionality,
`Clusters.Recenter` returns the cluster set obtained by replacing every cluster `cl` by
`cl.recentered`, a function of that cluster alone (so the result has the same length and
the new state of cluster `i` depends only on the old state of cluster `i`); the members of
`cl.recentered` are those of `cl`, its center is the center of `cl` when `cl` has no
members, and otherwise its center has the members' dimensionality and its `j`-th value is
the mean of the `j`-th components of the members of `cl`. -/
theorem Recenter_each_cluster_from_own_members (cs : Clusters)
    (hdim : ∀ cl ∈ cs, ∀ m ∈ cl.Observations, ∀ n ∈ cl.Observations,
      m.Coordinates.Values.length = n.Coordinates.Values.length) :
    cs.Recenter = .ok (cs.map Cluster.recentered) ∧
    ∀ cl ∈ cs,
      cl.recentered.Observations = cl.Observations ∧
      (cl.Observations = [] → cl.recentered.Center = cl.Center) ∧
      ∀ m ∈ cl.Observations,
        cl.recentered.Center.Values.length = m.Coordinates.Values.length ∧
        ∀ j, j < m.Coordinates.Values.length →
          cl.recentered.Center.Values[j]? = some (componentMean cl.Observations j) := by
  have hone : ∀ cl ∈ cs, cl.Recenter = .ok cl.recentered ∧
      cl.recentered.Observations = cl.Observations ∧
      (cl.Observations = [] → cl.recentered.Center = cl.Center) ∧
      ∀ m ∈ cl.Observations,
        cl.recentered.Center.Values.length = m.Coordinates.Values.length ∧
        ∀ j, j < m.Coordinates.Values.length →
          cl.recentered.Center.Values[j]? = some (componentMean cl.Observations j) := by
    intro cl hcl
    cases hobs : cl.Observations with
    | nil =>
      have h := Cluster_Recenter_empty cl hobs
      simp [Cluster.recentered, h, hobs]
    | cons c0 rest =>
      obtain ⟨ctr, _, hrec, hlen, hval⟩ := Cluster_Recenter_members cl c0 rest hobs (by
        intro o ho
        exact le_of_eq (hdim cl hcl o ho c0 (by rw [hobs]; exact List.mem_cons_self _ _)))
      have hr : cl.recentered = { cl with Center := ctr } := by
        simp [Cluster.recentered, hrec]
      refine ⟨by rw [hrec, hr], by rw [hr, hobs], by intro h; simp at h, ?_⟩
      intro m hm
      have hmc : m.Coordinates.Values.length = c0.Coordinates.Values.length :=
        hdim cl hcl m (by rw [hobs]; exact hm) c0 (by rw [hobs]; exact List.mem_cons_self _ _)
      rw [hr]
      refine ⟨by simpa [hmc] using hlen, ?_⟩
      intro j hj
      have := hval j (by omega)
      rw [hobs] at this
      simpa using this
  exact ⟨Recenter_eq_map Cluster.recentered cs (fun cl hcl => (hone cl hcl).1),
    fun cl hcl => (hone cl hcl).2⟩

theorem Recenter_each_cluster_from_own_members_witness :
    pairOfClusters.Recenter = .ok (pairOfClusters.map Cluster.recentered) :=
  (Recenter_each_cluster_from_own_members pairOfClusters (by
    intro cl hcl m hm n hn
    simp only [pairOfClusters, List.mem_cons, List.mem_singleton, List.not_mem_nil,
      or_false] at hcl
    rcases hcl with rfl | rfl
    · simp only [List.mem_cons, List.mem_singleton, List.not_mem_nil, or_false] at hm hn
      rcases hm with rfl | rfl <;> rcases hn with rfl | rfl <;> rfl
    · simp only [List.mem_cons, List.mem_singleton, List.not_mem_nil, or_false] at hm hn
      rcases hm with rfl | rfl <;> rcases hn with rfl | rfl <;> rfl)).1


/-- C13: construction returns an error and an empty cluster set when `k = 0`, when the
dataset is empty, or when the first observation of the dataset has zero dimensions (for
both `New` and `NewWithInitial`), and `NewWithInitial` does so as well when
`len(initialCenters) != k`. -/
theorem construction_rejects_invalid_input (k : Int) (dataset : Observations)
    (rand : Nat → ℚ) (initialCenters : List Coordinates) :
    ((k = 0 ∨ dataset = [] ∨
        ∃ d0 rest, dataset = d0 :: rest ∧ d0.Coordinates.Values.length = 0) →
      (∃ msg, New k dataset rand = ([], some msg)) ∧
      ∃ msg, NewWithInitial k dataset initialCenters = .ok ([], some msg)) ∧
    ((initialCenters.length : Int) ≠ k →
      ∃ msg, NewWithInitial k dataset initialCenters = .ok ([], some msg)) := by
  constructor
  · intro h
    cases dataset with
    | nil => exact ⟨⟨_, rfl⟩, ⟨_, rfl⟩⟩
    | cons d0 rest =>
      by_cases hz : d0.Coordinates.Values.length = 0
      · exact ⟨⟨_, by simp only [New, if_pos hz]; rfl⟩, ⟨_, by simp only [NewWithInitial, if_pos hz]; rfl⟩⟩
      · rcases h with hk | hnil | ⟨d, r, hd, hlen⟩
        · exact ⟨⟨_, by simp only [New, if_neg hz, if_pos hk]; rfl⟩,
            ⟨_, by simp only [NewWithInitial, if_neg hz, if_pos hk]; rfl⟩⟩
        · exact absurd hnil (List.cons_ne_nil _ _)
        · have hd0 : d0 = d := (List.cons.inj hd).1
          subst hd0
          exact absurd hlen hz
  · intro hne
    cases dataset with
    | nil => exact ⟨_, rfl⟩
    | cons d0 rest =>
      by_cases hz : d0.Coordinates.Values.length = 0
      · exact ⟨_, by simp only [NewWithInitial, if_pos hz]; rfl⟩
      · by_cases hk : k = 0
        · exact ⟨_, by simp only [NewWithInitial, if_neg hz, if_pos hk]; rfl⟩
        · exact ⟨_, by simp only [NewWithInitial, if_neg hz, if_neg hk, if_pos hne]; rfl⟩

theorem construction_rejects_invalid_input_witness :
    ((∃ msg, New 0 originAndFar (fun _ => 0) = ([], some msg)) ∧
      ∃ msg, NewWithInitial 0 originAndFar [⟨[1, 1], ""⟩] = .ok ([], some msg)) ∧
    ∃ msg, NewWithInitial 2 originAndFar [⟨[1, 1], ""⟩] = .ok ([], some msg) :=
  ⟨(construction_rejects_invalid_input 0 originAndFar (fun _ => 0) [⟨[1, 1], ""⟩]).1
      (Or.inl rfl),
   (construction_rejects_invalid_input 2 originAndFar (fun _ => 0) [⟨[1, 1], ""⟩]).2
      (by decide)⟩

theorem NewWithInitial_loop_spec (initialCenters : List Coordinates) :
    ∀ (fuel i : Nat) (c : Clusters), i + fuel ≤ initialCenters.length →
      NewWithInitial.loop initialCenters fuel i c =
        .ok (c ++ ((initialCenters.drop i).take fuel).map
          (fun center => { Center := center, Observations := [] })) := by
  intro fuel
  induction fuel with
  | zero =>
    intro i c _
    simp [NewWithInitial.loop]
  | succ fuel ih =>
    intro i c h
    have hi : i < initialCenters.length := by omega
    simp only [NewWithInitial.loop, List.getElem?_eq_getElem hi]
    have hdrop : initialCenters.drop i = initialCenters[i] :: initialCenters.drop (i + 1) :=
      List.drop_eq_getElem_cons hi
    rw [ih (i + 1) _ (by omega), hdrop]
    simp only [List.take_succ_cons, List.map_cons, List.append_assoc, List.singleton_append]

/-- C14: for `k >= 1`, a non-empty dataset whose first observation has at least one
dimension and `initialCenters` of length exactly `k`, `NewWithInitial` returns no error
and the cluster set whose `i`-th cluster has center `initialCenters[i]` and no members
(so exactly `k` clusters); and whenever `NewWithInitial` returns no error the result has
exactly `k >= 1` clusters. -/
theorem NewWithInitial_seeds_centers (k : Int) (dataset : Observations)
    (initialCenters : List Coordinates) :
    (1 ≤ k → (∃ d0 rest, dataset = d0 :: rest ∧ 1 ≤ d0.Coordinates.Values.length) →
      (initialCenters.length : Int) = k →
      NewWithInitial k dataset initialCenters =
        .ok (initialCenters.map (fun center => { Center := center, Observations := [] }),
          none) ∧
      ((initialCenters.map
        (fun center => ({ Center := center, Observations := [] } : Cluster))).length : Int)
          = k) ∧
    ∀ cs, NewWithInitial k dataset initialCenters = .ok (cs, none) →
      (cs.length : Int) = k ∧ 1 ≤ k := by
  have hgood : ∀ d0 rest, dataset = d0 :: rest → d0.Coordinates.Values.length ≠ 0 →
      k ≠ 0 → (initialCenters.length : Int) = k →
      NewWithInitial k dataset initialCenters =
        .ok (initialCenters.map (fun center => { Center := center, Observations := [] }),
          none) := by
    intro d0 rest hd hz hk hlen
    subst hd
    have hnat : k.toNat = initialCenters.length := by omega
    have hloop := NewWithInitial_loop_spec initialCenters initialCenters.length 0 []
      (by omega)
    simp only [NewWithInitial, if_neg hz, if_neg hk, hlen, ne_eq, not_true_eq_false,
      if_false, hnat, hloop]
    simp
  constructor
  · intro hk hds hlen
    obtain ⟨d0, rest, hd, hdim⟩ := hds
    exact ⟨hgood d0 rest hd (by omega) (by omega) hlen, by simpa using hlen⟩
  · intro cs hcs
    cases hd : dataset with
    | nil =>
      rw [hd] at hcs
      simp [NewWithInitial] at hcs
    | cons d0 rest =>
      by_cases hz : d0.Coordinates.Values.length = 0
      · rw [hd] at hcs
        simp [NewWithInitial, hz] at hcs
      · by_cases hk : k = 0
        · rw [hd] at hcs
          simp [NewWithInitial, hz, hk] at hcs
        · by_cases hlen : (initialCenters.length : Int) = k
          · rw [hgood d0 rest hd hz hk hlen] at hcs
            have hcs1 : initialCenters.map
                (fun center => ({ Center := center, Observations := [] } : Cluster)) = cs := by
              simpa using hcs
            subst hcs1
            refine ⟨by simpa using hlen, ?_⟩
            omega
          · rw [hd] at hcs
            simp [NewWithInitial, hz, hk, hlen] at hcs


theorem NewWithInitial_seeds_centers_witness :
    NewWithInitial 2 originAndFar [⟨[0, 0], "a"⟩, ⟨[10, 10], "b"⟩] =
      .ok ([{ Center := ⟨[0, 0], "a"⟩, Observations := [] },
            { Center := ⟨[10, 10], "b"⟩, Observations := [] }], none) :=
  ((NewWithInitial_seeds_centers 2 originAndFar [⟨[0, 0], "a"⟩, ⟨[10, 10], "b"⟩]).1
    (by decide) ⟨_, _, rfl, by decide⟩ (by decide)).1

/-- C15, failing input: with `k = -1` and a dataset of two 2-dimensional points, `New`
returns no error and a cluster set with no cluster at all, whatever the random source. -/
theorem New_negative_k_returns_empty_without_error (rand : Nat → ℚ) :
    New (-1) originAndFar rand = ([], none) := by
  simp [New, originAndFar, Coordinates.toObservation, Coordinates.Coordinates,
    New.clusterLoop]

theorem New_fillLoop_spec (rand : Nat → ℚ) :
    ∀ (fuel j : Nat) (values : List ℚ) (n : Nat), j + fuel ≤ values.length →
      (New.fillLoop rand fuel j values n).1.length = values.length ∧
      (New.fillLoop rand fuel j values n).2 = n + fuel ∧
      ∀ i, (New.fillLoop rand fuel j values n).1[i]? =
        if j ≤ i ∧ i < j + fuel then some (rand (n + (i - j))) else values[i]? := by
  intro fuel
  induction fuel with
  | zero =>
    intro j values n _
    refine ⟨rfl, rfl, ?_⟩
    intro i
    have hno : ¬ (j ≤ i ∧ i < j + 0) := by omega
    rw [if_neg hno]
    rfl
  | succ fuel ih =>
    intro j values n h
    obtain ⟨hlen, hn, hval⟩ := ih (j + 1) (values.set j (rand n)) (n + 1)
      (by simp; omega)
    simp only [New.fillLoop]
    refine ⟨by simpa using hlen, by omega, ?_⟩
    intro i
    rw [hval i, List.getElem?_set]
    by_cases hji : j = i
    · subst hji
      have h1 : ¬ (j + 1 ≤ j ∧ j < j + 1 + fuel) := by omega
      have h2 : j ≤ j ∧ j < j + (fuel + 1) := by omega
      have h3 : j < values.length := by omega
      simp [h1, h2, h3]
    · by_cases hin : j + 1 ≤ i ∧ i < j + 1 + fuel
      · have h2 : j ≤ i ∧ i < j + (fuel + 1) := by omega
        have h3 : n + 1 + (i - (j + 1)) = n + (i - j) := by omega
        simp [hin, h2, h3]
      · have h2 : ¬ (j ≤ i ∧ i < j + (fuel + 1)) := by omega
        simp [hin, h2, hji]

theorem New_clusterLoop_spec (rand : Nat → ℚ) (dims : Nat)
    (hrand : ∀ n, 0 ≤ rand n ∧ rand n < 1) :
    ∀ (fuel : Nat) (c : Clusters) (n : Nat),
      ∃ fresh : Clusters, New.clusterLoop rand dims fuel c n = c ++ fresh ∧
        fresh.length = fuel ∧
        ∀ cl ∈ fresh, cl.Observations = [] ∧ cl.Center.Values.length = dims ∧
          ∀ v ∈ cl.Center.Values, 0 ≤ v ∧ v < 1 := by
  intro fuel
  induction fuel with
  | zero =>
    intro c n
    exact ⟨[], by simp [New.clusterLoop], rfl, by simp⟩
  | succ fuel ih =>
    intro c n
    obtain ⟨hlen, _, hval⟩ := New_fillLoop_spec rand dims 0 (List.replicate dims 0) n
      (by simp)
    obtain ⟨fresh, hfresh, hflen, hfprop⟩ := ih
      (c ++ [{ Center := { Values := (New.fillLoop rand dims 0 (List.replicate dims 0) n).1,
                           Label := "" },
               Observations := [] }])
      (New.fillLoop rand dims 0 (List.replicate dims 0) n).2
    refine ⟨{ Center := { Values := (New.fillLoop rand dims 0 (List.replicate dims 0) n).1,
                          Label := "" },
              Observations := [] } :: fresh, ?_, by simp [hflen], ?_⟩
    · simp only [New.clusterLoop, hfresh]
      simp
    · intro cl hcl
      rcases List.mem_cons.mp hcl with rfl | hmem
      · refine ⟨rfl, by simpa using hlen, ?_⟩
        intro v hv
        obtain ⟨i, hi⟩ := List.getElem?_of_mem hv
        have hi1 := hval i
        simp only at hi
        rw [hi] at hi1
        by_cases hin : 0 ≤ i ∧ i < 0 + dims
        · rw [if_pos hin] at hi1
          have hv1 : v = rand (n + (i - 0)) := by simpa using hi1
          rw [hv1]
          exact hrand _
        · rw [if_neg hin] at hi1
          have hnone : (List.replicate dims (0 : ℚ))[i]? = none := by
            apply List.getElem?_eq_none
            simp
            omega
          rw [hnone] at hi1
          simp at hi1
      · exact hfprop cl hmem

/-- For `k >= 1`, a non-empty dataset whose first observation has `D >= 1` dimensions and a
random source with values in `[0,1)`, `New` returns no error and exactly `k` clusters, each
without members and with a center of length `D` whose components lie in `[0,1)`. -/
theorem New_positive_k (k : Int) (d0 : Observation) (rest : List Observation)
    (rand : Nat → ℚ) (hk : 1 ≤ k) (hdim : 1 ≤ d0.Coordinates.Values.length)
    (hrand : ∀ n, 0 ≤ rand n ∧ rand n < 1) :
    ∃ cs, New k (d0 :: rest) rand = (cs, none) ∧ (cs.length : Int) = k ∧
      ∀ cl ∈ cs, cl.Observations = [] ∧
        cl.Center.Values.length = d0.Coordinates.Values.length ∧
        ∀ v ∈ cl.Center.Values, 0 ≤ v ∧ v < 1 := by
  obtain ⟨fresh, hfresh, hlen, hprop⟩ :=
    New_clusterLoop_spec rand d0.Coordinates.Values.length hrand k.toNat [] 0
  refine ⟨fresh, ?_, by omega, hprop⟩
  have hz : ¬ d0.Coordinates.Values.length = 0 := by omega
  have hk0 : ¬ k = 0 := by omega
  simp only [New, if_neg hz, if_neg hk0, hfresh, List.nil_append]


/-- C16: with dataset `[(0,0), (0,1), (10,10), (10,11)]`, `k = 2` and `NewWithInitial`
seeded with centers `[(0,0), (10,10)]`, one pass (`Reset`, `Append` of every observation
to the cluster at index `Nearest`, `Clusters.Recenter`) returns cluster 0 with members
exactly `[(0,0), (0,1)]` and center `(0, 1/2)`, and cluster 1 with members exactly
`[(10,10), (10,11)]` and center `(10, 21/2)`. -/
theorem one_pass_scenario :
    ∃ cs, NewWithInitial 2 scenarioDataset scenarioCenters = .ok (cs, none) ∧
      onePass cs scenarioDataset =
        .ok [{ Center := { Values := [0, 1 / 2], Label := "" },
               Observations :=
                 [({ Values := [0, 0], Label := "" } : Coordinates).toObservation,
                  ({ Values := [0, 1], Label := "" } : Coordinates).toObservation] },
             { Center := { Values := [10, 21 / 2], Label := "" },
               Observations :=
                 [({ Values := [10, 10], Label := "" } : Coordinates).toObservation,
                  ({ Values := [10, 11], Label := "" } : Coordinates).toObservation] }] := by
  refine ⟨[{ Center := ⟨[0, 0], ""⟩, Observations := [] },
           { Center := ⟨[10, 10], ""⟩, Observations := [] }], ?_, ?_⟩
  · simp [NewWithInitial, NewWithInitial.loop, scenarioDataset, scenarioCenters,
      Coordinates.toObservation, Coordinates.Coordinates]
  · norm_num [onePass, assignAll, Clusters.Reset, Clusters.resetLoop, Clusters.Nearest,
      Clusters.nearestLoop, Clusters.Recenter, Clusters.recenterLoop, Cluster.Recenter,
      Cluster.Append, Observations.Center, Observations.centerOuter,
      Observations.centerInner, scenarioDataset, Coordinates.toObservation,
      Coordinates.Coordinates, Coordinates.Distance, Coordinates.distanceLoop,
      List.replicate]


theorem centerInner_short :
    ∀ (vs : List ℚ) (j : Nat) (cc : List ℚ), j ≤ cc.length → cc.length < j + vs.length →
      Observations.centerInner vs j cc = .error (.indexOutOfRange cc.length cc.length) := by
  intro vs
  induction vs with
  | nil => intro j cc h1 h2; simp at h2; omega
  | cons v vs ih =>
    intro j cc h1 h2
    rcases Nat.lt_or_ge j cc.length with hj | hj
    · simp only [Observations.centerInner, List.getElem?_eq_getElem hj]
      have := ih (j + 1) (cc.set j (cc[j] + v)) (by simp; omega) (by simp at h2 ⊢; omega)
      simpa using this
    · have hjeq : j = cc.length := by omega
      subst hjeq
      simp [Observations.centerInner]

theorem centerOuter_long :
    ∀ (ps : List Observation) (cc : List ℚ),
      (∃ o ∈ ps, cc.length < o.Coordinates.Values.length) →
      Observations.centerOuter ps cc = .error (.indexOutOfRange cc.length cc.length) := by
  intro ps
  induction ps with
  | nil => intro cc h; obtain ⟨o, ho, _⟩ := h; simp at ho
  | cons p ps ih =>
    intro cc h
    by_cases hp : cc.length < p.Coordinates.Values.length
    · simp only [Observations.centerOuter,
        centerInner_short p.Coordinates.Values 0 cc (Nat.zero_le _) (by omega)]
    · obtain ⟨r1, hr1, hlen1, _⟩ := centerInner_ok p.Coordinates.Values 0 cc (by omega)
      have hrest : ∃ o ∈ ps, r1.length < o.Coordinates.Values.length := by
        obtain ⟨o, ho, hlt⟩ := h
        rcases List.mem_cons.mp ho with rfl | ho1
        · exact absurd hlt hp
        · exact ⟨o, ho1, by rw [hlen1]; exact hlt⟩
      simp only [Observations.centerOuter, hr1]
      rw [ih r1 hrest, hlen1]

theorem presentComponentSum_eq (c : List Observation) (j : Nat) :
    presentComponentSum c j = (c.map (fun o => o.Coordinates.Values.getD j 0)).sum := by
  unfold presentComponentSum
  induction c with
  | nil => simp
  | cons m c ih =>
    by_cases hj : j < m.Coordinates.Values.length
    · simp only [List.filter_cons, hj, decide_True, if_true, List.map_cons, List.sum_cons, ih]
    · have hz : m.Coordinates.Values.getD j 0 = 0 := by
        rw [List.getD_eq_getElem?_getD, List.getElem?_eq_none (by omega)]
        rfl
      simp only [List.filter_cons, hj, decide_False, Bool.false_eq_true, if_false,
        List.map_cons, List.sum_cons, ih, hz, zero_add]

/-- C20: for a non-empty set of Observations with first member `c0`, `Center` panics
exactly when some member has more dimensions than `c0`, and the panic is an index out of
range at index `len(c0)`; when no member is longer than `c0`, `Center` returns no error
and a Coordinates of the dimensionality of `c0` whose `j`-th component is the sum of the
`j`-th components of the members that have one, divided by the number of all members. -/
theorem Center_inconsistent_dimensions (c0 : Observation) (rest : List Observation) :
    ((∃ e, Observations.Center (c0 :: rest) = .error e) ↔
      ∃ m ∈ c0 :: rest, c0.Coordinates.Values.length < m.Coordinates.Values.length) ∧
    ((∃ m ∈ c0 :: rest, c0.Coordinates.Values.length < m.Coordinates.Values.length) →
      Observations.Center (c0 :: rest) =
        .error (.indexOutOfRange c0.Coordinates.Values.length c0.Coordinates.Values.length)) ∧
    ((∀ m ∈ c0 :: rest, m.Coordinates.Values.length ≤ c0.Coordinates.Values.length) →
      ∃ ctr : Coordinates, Observations.Center (c0 :: rest) = .ok (ctr, none) ∧
        ctr.Values.length = c0.Coordinates.Values.length ∧
        ∀ j, j < c0.Coordinates.Values.length →
          ctr.Values[j]? =
            some (presentComponentSum (c0 :: rest) j / (((c0 :: rest).length : Nat) : ℚ))) := by
  have hlong : (∃ m ∈ c0 :: rest,
      c0.Coordinates.Values.length < m.Coordinates.Values.length) →
      Observations.Center (c0 :: rest) =
        .error (.indexOutOfRange c0.Coordinates.Values.length
          c0.Coordinates.Values.length) := by
    intro h
    have := centerOuter_long (c0 :: rest)
      (List.replicate c0.Coordinates.Values.length 0) (by simpa using h)
    simp only [Observations.Center, this]
    simp
  have hshort : (∀ m ∈ c0 :: rest,
      m.Coordinates.Values.length ≤ c0.Coordinates.Values.length) →
      ∃ ctr : Coordinates, Observations.Center (c0 :: rest) = .ok (ctr, none) ∧
        ctr.Values.length = c0.Coordinates.Values.length ∧
        ∀ j, j < c0.Coordinates.Values.length →
          ctr.Values[j]? =
            some (presentComponentSum (c0 :: rest) j / (((c0 :: rest).length : Nat) : ℚ)) := by
    intro h
    obtain ⟨ctr, hctr, hlen, hval⟩ := Center_ok (c0 :: rest) c0 rest rfl h
    refine ⟨ctr, hctr, hlen, ?_⟩
    intro j hj
    rw [hval j hj, presentComponentSum_eq]
    rfl
  refine ⟨⟨?_, fun h => ⟨_, hlong h⟩⟩, hlong, hshort⟩
  intro herr
  by_contra hno
  obtain ⟨e, he⟩ := herr
  obtain ⟨ctr, hctr, _⟩ := hshort (by
    intro m hm
    by_contra hlt
    exact hno ⟨m, hm, by omega⟩)
  rw [hctr] at he
  cases he

theorem Center_inconsistent_dimensions_witness :
    Observations.Center [(⟨[0, 0], ""⟩ : Coordinates).toObservation,
        (⟨[1, 2, 3], ""⟩ : Coordinates).toObservation] =
      .error (.indexOutOfRange 2 2) ∧
    ∃ ctr : Coordinates,
      Observations.Center [(⟨[0, 0], ""⟩ : Coordinates).toObservation,
        (⟨[5], ""⟩ : Coordinates).toObservation] = .ok (ctr, none) ∧
      ctr.Values.length = 2 ∧
      ∀ j, j < 2 → ctr.Values[j]? =
        some (presentComponentSum [(⟨[0, 0], ""⟩ : Coordinates).toObservation,
          (⟨[5], ""⟩ : Coordinates).toObservation] j / ((2 : Nat) : ℚ)) :=
  ⟨(Center_inconsistent_dimensions (⟨[0, 0], ""⟩ : Coordinates).toObservation
      [(⟨[1, 2, 3], ""⟩ : Coordinates).toObservation]).2.1
      ⟨(⟨[1, 2, 3], ""⟩ : Coordinates).toObservation, by simp, by decide⟩,
   (Center_inconsistent_dimensions (⟨[0, 0], ""⟩ : Coordinates).toObservation
      [(⟨[5], ""⟩ : Coordinates).toObservation]).2.2 (by
        intro m hm
        simp only [List.mem_cons, List.mem_singleton, List.not_mem_nil, or_false] at hm
        rcases hm with rfl | rfl <;> decide)⟩


theorem sum_sq_shift {α : Type} (f : α → ℚ) (a q : ℚ) :
    ∀ ms : List α,
      (ms.map (fun m => (f m - q) ^ 2)).sum =
        (ms.map (fun m => (f m - a) ^ 2)).sum +
          2 * (a - q) * ((ms.map f).sum - (ms.length : ℚ) * a) +
          (ms.length : ℚ) * (a - q) ^ 2 := by
  intro ms
  induction ms with
  | nil => simp
  | cons m ms ih =>
    simp only [List.map_cons, List.sum_cons, List.length_cons, Nat.cast_add, Nat.cast_one]
    rw [ih]
    ring

theorem sum_sq_mean_le {α : Type} (f : α → ℚ) (q : ℚ) (ms : List α) (hne : ms ≠ []) :
    (ms.map (fun m => (f m - (ms.map f).sum / (ms.length : ℚ)) ^ 2)).sum ≤
      (ms.map (fun m => (f m - q) ^ 2)).sum := by
  have hlen : (ms.length : ℚ) ≠ 0 := by
    intro h
    exact hne (List.length_eq_zero.mp (by exact_mod_cast h))
  have hpos : (0 : ℚ) ≤ (ms.length : ℚ) := Nat.cast_nonneg _
  rw [sum_sq_shift f ((ms.map f).sum / (ms.length : ℚ)) q ms]
  have hzero : (ms.map f).sum - (ms.length : ℚ) * ((ms.map f).sum / (ms.length : ℚ)) = 0 := by
    field_simp
  rw [hzero]
  have hsq : 0 ≤ (ms.length : ℚ) * ((ms.map f).sum / (ms.length : ℚ) - q) ^ 2 :=
    mul_nonneg hpos (sq_nonneg _)
  linarith

theorem sum_sqEuclid_swap (obs : List Observation) (q : List ℚ) (D : Nat)
    (hdim : ∀ o ∈ obs, o.Coordinates.Values.length = D) :
    (obs.map (fun o => sqEuclid o.Coordinates.Values q)).sum =
      Finset.sum (Finset.range D) (fun i =>
        (obs.map (fun o => (o.Coordinates.Values.getD i 0 - q.getD i 0) ^ 2)).sum) := by
  induction obs with
  | nil => simp
  | cons o obs ih =>
    have ho : o.Coordinates.Values.length = D := hdim o (List.mem_cons_self _ _)
    simp only [List.map_cons, List.sum_cons]
    rw [ih (fun x hx => hdim x (List.mem_cons_of_mem _ hx)), Finset.sum_add_distrib]
    congr 1
    unfold sqEuclid
    rw [ho]

/-- The centroid minimises the total squared distance: whenever `ctr` holds, in each of the
`D` dimensions, the mean of the members' components, the members are in total no farther
from `ctr` than from any other `q`. -/
theorem centroid_optimal (obs : List Observation) (ctr q : List ℚ) (D : Nat)
    (hne : obs ≠ [])
    (hdim : ∀ o ∈ obs, o.Coordinates.Values.length = D)
    (hctr : ∀ j, j < D → ctr.getD j 0 = componentMean obs j) :
    (obs.map (fun o => sqEuclid o.Coordinates.Values ctr)).sum ≤
      (obs.map (fun o => sqEuclid o.Coordinates.Values q)).sum := by
  rw [sum_sqEuclid_swap obs ctr D hdim, sum_sqEuclid_swap obs q D hdim]
  apply Finset.sum_le_sum
  intro i hi
  have h := sum_sq_mean_le (fun o : Observation => o.Coordinates.Values.getD i 0)
    (q.getD i 0) obs hne
  rw [hctr i (Finset.mem_range.mp hi)]
  unfold componentMean
  exact h

theorem sumDistances_eq (p : Coordinates) :
    ∀ ms : List Coordinates, (∀ m ∈ ms, m.Values.length ≤ p.Values.length) →
      sumDistances ms p = .ok ((ms.map (fun m => sqEuclid m.Values p.Values)).sum) := by
  intro ms
  induction ms with
  | nil => intro _; rfl
  | cons m ms ih =>
    intro h
    simp only [sumDistances, Distance_eq_sqEuclid m p (h m (List.mem_cons_self _ _)),
      ih (fun x hx => h x (List.mem_cons_of_mem _ hx)), List.map_cons, List.sum_cons]

/-- C17, amended: in exact real arithmetic (float64 rounding left aside), for a non-empty
set of Coordinates observations of common dimensionality `D` and a Coordinates `p` of
dimensionality `D`, `Center` returns a center `ctr` without error, and the sum over the
members `m` of `Distance(m, ctr)` is not larger than the sum over the members `m` of
`Distance(m, p)`. -/
theorem Center_minimises_total_distance (c : List Coordinates) (p : Coordinates) (D : Nat)
    (hne : c ≠ [])
    (hdim : ∀ m ∈ c, m.Values.length = D)
    (hp : p.Values.length = D) :
    ∃ ctr s1 s2, Observations.Center (c.map Coordinates.toObservation) = .ok (ctr, none) ∧
      sumDistances c ctr = .ok s1 ∧ sumDistances c p = .ok s2 ∧ s1 ≤ s2 := by
  have hobs : ∀ o ∈ c.map Coordinates.toObservation, o.Coordinates.Values.length = D := by
    intro o ho
    obtain ⟨m, hm, rfl⟩ := List.mem_map.mp ho
    exact hdim m hm
  cases hc : c with
  | nil => exact absurd hc hne
  | cons c0 rest =>
    have hc0 : c0.Values.length = D := hdim c0 (by rw [hc]; exact List.mem_cons_self _ _)
    obtain ⟨ctr, hctr, hlen, hval⟩ := Center_ok (c.map Coordinates.toObservation)
      c0.toObservation (rest.map Coordinates.toObservation) (by rw [hc]; rfl)
      (fun o ho => by rw [hobs o ho]; exact le_of_eq hc0.symm)
    have hlen1 : ctr.Values.length = D := by rw [hlen]; exact hc0
    have hget : ∀ j, j < D →
        ctr.Values.getD j 0 = componentMean (c.map Coordinates.toObservation) j := by
      intro j hj
      have := hval j (by rw [show c0.toObservation.Coordinates.Values.length = D from hc0]; exact hj)
      rw [List.getD_eq_getElem?_getD, this]
      rfl
    have hopt := centroid_optimal (c.map Coordinates.toObservation) ctr.Values p.Values D
      (by rw [hc]; simp) hobs hget
    rw [← hc]
    refine ⟨ctr, _, _, hctr,
      sumDistances_eq ctr c (fun m hm => by rw [hdim m hm, hlen1]),
      sumDistances_eq p c (fun m hm => by rw [hdim m hm, hp]), ?_⟩
    simpa [List.map_map, Function.comp, Coordinates.toObservation, Coordinates.Coordinates]
      using hopt

theorem Center_minimises_total_distance_witness :
    ∃ ctr s1 s2,
      Observations.Center
        (([⟨[0, 0], ""⟩, ⟨[2, 4], ""⟩] : List Coordinates).map Coordinates.toObservation) =
          .ok (ctr, none) ∧
      sumDistances [⟨[0, 0], ""⟩, ⟨[2, 4], ""⟩] ctr = .ok s1 ∧
      sumDistances [⟨[0, 0], ""⟩, ⟨[2, 4], ""⟩] ⟨[5, 5], "p"⟩ = .ok s2 ∧ s1 ≤ s2 :=
  Center_minimises_total_distance [⟨[0, 0], ""⟩, ⟨[2, 4], ""⟩] ⟨[5, 5], "p"⟩ 2
    (by simp)
    (by
      intro m hm
      simp only [List.mem_cons, List.mem_singleton, List.not_mem_nil, or_false] at hm
      rcases hm with rfl | rfl <;> rfl)
    rfl


theorem nearestLoop_centers (point : Observation) :
    ∀ (cs cs1 : List Cluster),
      cs.map (fun cl => cl.Center) = cs1.map (fun cl => cl.Center) →
      ∀ (i : Nat) (dist : ℚ) (ci : Nat),
        Clusters.nearestLoop point cs i dist ci = Clusters.nearestLoop point cs1 i dist ci := by
  intro cs
  induction cs with
  | nil =>
    intro cs1 h i dist ci
    cases cs1 with
    | nil => rfl
    | cons b bs => simp at h
  | cons a as ih =>
    intro cs1 h i dist ci
    cases cs1 with
    | nil => simp at h
    | cons b bs =>
      simp only [List.map_cons, List.cons.injEq] at h
      obtain ⟨hab, htail⟩ := h
      simp only [Clusters.nearestLoop, hab]
      cases point.Distance b.Center with
      | error e => rfl
      | ok d =>
        simp only
        rw [ih bs htail (i + 1) d i, ih bs htail (i + 1) dist ci]

theorem Nearest_plain_in_range (cs : Clusters) (p : Coordinates) (D : Nat)
    (hne : cs ≠ [])
    (hc : ∀ cl ∈ cs, cl.Center.Values.length = D)
    (hp : p.Values.length = D) :
    cs.Nearest p.toObservation = .ok (assignedIndex cs p) ∧ assignedIndex cs p < cs.length ∧
      ∀ cl ∈ cs, sqEuclid p.Values (centerValuesAt cs (assignedIndex cs p)) ≤
        sqEuclid p.Values cl.Center.Values := by
  have hf : ∀ cl ∈ cs, p.toObservation.Distance cl.Center =
      .ok (sqEuclid p.Values cl.Center.Values) := by
    intro cl hcl
    exact Distance_eq_sqEuclid p cl.Center (by rw [hc cl hcl, hp])
  obtain ⟨i, hi, hres, hmin, _⟩ :=
    Nearest_first_min cs p.toObservation (fun cl => sqEuclid p.Values cl.Center.Values)
      hne hf (fun cl _ => sqEuclid_nonneg _ _)
  have hidx : assignedIndex cs p = i := by simp [assignedIndex, hres]
  rw [hidx]
  refine ⟨hres, hi, ?_⟩
  intro cl hcl
  have := hmin cl hcl
  simpa [centerValuesAt, List.getElem?_eq_getElem hi] using this

theorem assignAll_spec (old : Clusters) (D : Nat)
    (hne : old ≠ [])
    (hc : ∀ cl ∈ old, cl.Center.Values.length = D) :
    ∀ (dataset : List Coordinates) (cs : Clusters),
      (∀ p ∈ dataset, p.Values.length = D) →
      cs.map (fun cl => cl.Center) = old.map (fun cl => cl.Center) →
      ∃ r, assignAll cs (dataset.map Coordinates.toObservation) = .ok r ∧
        r.length = cs.length ∧
        ∀ i : Nat, r[i]? = cs[i]?.map (fun cl : Cluster =>
          { cl with
            Observations :=
              cl.Observations ++ List.map Coordinates.toObservation
                (dataset.filter (fun p => decide (assignedIndex old p = i))) }) := by
  intro dataset
  induction dataset with
  | nil =>
    intro cs _ _
    refine ⟨cs, rfl, rfl, ?_⟩
    intro i
    cases cs[i]? with
    | none => rfl
    | some cl => simp
  | cons p ps ih =>
    intro cs hd hcs
    have hp : p.Values.length = D := hd p (List.mem_cons_self _ _)
    obtain ⟨hnear, hlt, _⟩ := Nearest_plain_in_range old p D hne hc hp
    have hlen : cs.length = old.length := by
      have := congrArg List.length hcs
      simpa using this
    have hlt1 : assignedIndex old p < cs.length := by omega
    have hN : cs.Nearest p.toObservation = .ok (assignedIndex old p) := by
      rw [← hnear]
      exact nearestLoop_centers p.toObservation cs old hcs 0 (-1) 0
    have hcs1 : (cs.set (assignedIndex old p)
        (cs[assignedIndex old p].Append p.toObservation)).map (fun cl => cl.Center) =
        old.map (fun cl => cl.Center) := by
      rw [← hcs]
      apply List.ext_getElem?
      intro i
      rw [List.getElem?_map, List.getElem?_map, List.getElem?_set]
      by_cases hi : assignedIndex old p = i
      · subst hi
        simp [hlt1, Cluster.Append]
      · simp [hi]
    obtain ⟨r, hr, hrlen, hval⟩ := ih _ (fun x hx => hd x (List.mem_cons_of_mem _ hx)) hcs1
    refine ⟨r, ?_, by simpa using hrlen, ?_⟩
    · simp only [List.map_cons, assignAll, hN, List.getElem?_eq_getElem hlt1]
      exact hr
    · intro i
      rw [hval i, List.getElem?_set]
      by_cases hi : assignedIndex old p = i
      · subst hi
        simp [hlt1, Cluster.Append, List.filter_cons]
      · simp [hi, List.filter_cons]


theorem Cluster_recentered_spec (cl : Cluster) (D : Nat)
    (hdim : ∀ m ∈ cl.Observations, m.Coordinates.Values.length = D) :
    cl.Recenter = .ok cl.recentered ∧
    cl.recentered.Observations = cl.Observations ∧
    (cl.Observations = [] → cl.recentered.Center = cl.Center) ∧
    (cl.Observations ≠ [] → cl.recentered.Center.Values.length = D ∧
      ∀ j, j < D → cl.recentered.Center.Values.getD j 0 = componentMean cl.Observations j) := by
  cases hobs : cl.Observations with
  | nil =>
    have h := Cluster_Recenter_empty cl hobs
    simp [Cluster.recentered, h, hobs]
  | cons c0 rest =>
    have hc0 : c0.Coordinates.Values.length = D :=
      hdim c0 (by rw [hobs]; exact List.mem_cons_self _ _)
    obtain ⟨ctr, _, hrec, hlen, hval⟩ := Cluster_Recenter_members cl c0 rest hobs (by
      intro o ho
      rw [hdim o ho, hc0])
    have hr : cl.recentered = { cl with Center := ctr } := by
      simp [Cluster.recentered, hrec]
    refine ⟨by rw [hrec, hr], by rw [hr, hobs], by intro h; simp at h, ?_⟩
    intro _
    rw [hr]
    refine ⟨by simpa [hc0] using hlen, ?_⟩
    intro j hj
    have := hval j (by omega)
    rw [hobs] at this
    simp only [List.getD_eq_getElem?_getD, this, Option.getD_some]

theorem passObjective_eq (old now : Clusters) (D : Nat)
    (hne : old ≠ [])
    (hc : ∀ cl ∈ old, cl.Center.Values.length = D)
    (hlen : now.length = old.length)
    (hnow : ∀ cl ∈ now, cl.Center.Values.length = D) :
    ∀ dataset : List Coordinates, (∀ p ∈ dataset, p.Values.length = D) →
      passObjective old now dataset =
        .ok ((dataset.map (fun p =>
          sqEuclid p.Values (centerValuesAt now (assignedIndex old p)))).sum) := by
  intro dataset
  induction dataset with
  | nil => intro _; rfl
  | cons p ps ih =>
    intro hd
    have hp : p.Values.length = D := hd p (List.mem_cons_self _ _)
    obtain ⟨hnear, hlt, _⟩ := Nearest_plain_in_range old p D hne hc hp
    have hlt1 : assignedIndex old p < now.length := by omega
    have hdist : p.Distance now[assignedIndex old p].Center =
        .ok (sqEuclid p.Values now[assignedIndex old p].Center.Values) :=
      Distance_eq_sqEuclid p _ (by rw [hnow _ (List.getElem_mem _), hp])
    simp only [passObjective, hnear, List.getElem?_eq_getElem hlt1, hdist,
      ih (fun x hx => hd x (List.mem_cons_of_mem _ hx)), List.map_cons, List.sum_cons,
      centerValuesAt]

theorem sum_by_assigned_index {α : Type} (idx : α → Nat) (g : α → Nat → ℚ) (k : Nat) :
    ∀ items : List α, (∀ p ∈ items, idx p < k) →
      (items.map (fun p => g p (idx p))).sum =
        Finset.sum (Finset.range k) (fun i =>
          ((items.filter (fun p => decide (idx p = i))).map (fun p => g p i)).sum) := by
  intro items
  induction items with
  | nil => intro _; simp
  | cons p ps ih =>
    intro h
    have hp : idx p < k := h p (List.mem_cons_self _ _)
    have hsplit : ∀ i, ((List.filter (fun x => decide (idx x = i)) (p :: ps)).map
          (fun x => g x i)).sum =
        (if idx p = i then g p i else 0) +
          ((ps.filter (fun x => decide (idx x = i))).map (fun x => g x i)).sum := by
      intro i
      by_cases hi : idx p = i
      · simp [List.filter_cons, hi]
      · simp [List.filter_cons, hi]
    simp only [List.map_cons, List.sum_cons, hsplit, Finset.sum_add_distrib]
    rw [ih (fun x hx => h x (List.mem_cons_of_mem _ hx)), Finset.sum_ite_eq,
      if_pos (Finset.mem_range.mpr hp)]


theorem assignAll_after_Reset (cs : Clusters) (dataset : List Coordinates) (D : Nat)
    (hne : cs ≠ [])
    (hc : ∀ cl ∈ cs, cl.Center.Values.length = D)
    (hd : ∀ p ∈ dataset, p.Values.length = D) :
    ∃ a, assignAll cs.Reset (dataset.map Coordinates.toObservation) = .ok a ∧
      a.length = cs.length ∧
      ∀ i : Nat, a[i]? = cs[i]?.map (assignedCluster cs dataset i) := by
  obtain ⟨a, ha, halen, haval⟩ := assignAll_spec cs D hne hc dataset cs.Reset hd
    (by rw [Reset_eq_map]; simp)
  refine ⟨a, ha, by rw [halen, Reset_eq_map]; simp, ?_⟩
  intro i
  rw [haval i, Reset_eq_map, List.getElem?_map]
  cases cs[i]? with
  | none => rfl
  | some cl => simp [assignedCluster]

/-- C18, amended: in exact real arithmetic (float64 rounding left aside), for a non-empty
cluster set and a dataset of Coordinates, all of the dimensionality `D` of the centers,
one pass (`Reset`, `Append` of every observation to the cluster at index `Nearest`,
`Clusters.Recenter`) returns a cluster set `r` of the same length, whose cluster `i` holds
exactly the observations assigned to index `i`; the sum over all observations of the
`Distance` to the new center of the assigned cluster (`sNew`) is not larger than the sum
of the `Distance` to the old center of that cluster (`sOld`); and the latter distance is,
for each observation, its minimum over all old centers. -/
theorem one_pass_does_not_increase_objective (cs : Clusters) (dataset : List Coordinates)
    (D : Nat)
    (hne : cs ≠ [])
    (hc : ∀ cl ∈ cs, cl.Center.Values.length = D)
    (hd : ∀ p ∈ dataset, p.Values.length = D) :
    ∃ r sNew sOld,
      onePass cs (dataset.map Coordinates.toObservation) = .ok r ∧
      r.length = cs.length ∧
      (∀ (i : Nat) (cl : Cluster), r[i]? = some cl →
        cl.Observations = List.map Coordinates.toObservation
          (dataset.filter (fun p => decide (assignedIndex cs p = i)))) ∧
      passObjective cs r dataset = .ok sNew ∧
      passObjective cs cs dataset = .ok sOld ∧
      sNew ≤ sOld ∧
      ∀ p ∈ dataset, ∃ i cl d, cs.Nearest p.toObservation = .ok i ∧ cs[i]? = some cl ∧
        p.Distance cl.Center = .ok d ∧
        ∀ other ∈ cs, ∃ d1, p.Distance other.Center = .ok d1 ∧ d ≤ d1 := by
  obtain ⟨a, ha, halen, haval⟩ := assignAll_after_Reset cs dataset D hne hc hd
  -- every member of every cluster after the assignment has dimensionality `D`
  have hmem : ∀ x ∈ a, ∀ m ∈ x.Observations, m.Coordinates.Values.length = D := by
    intro x hx m hm
    obtain ⟨i, hi⟩ := List.getElem?_of_mem hx
    rw [haval i] at hi
    cases hcs : cs[i]? with
    | none => rw [hcs] at hi; simp at hi
    | some cl0 =>
      rw [hcs] at hi
      simp only [Option.map_some', Option.some.injEq] at hi
      subst hi
      obtain ⟨p, hp, rfl⟩ := List.mem_map.mp hm
      exact hd p (List.mem_of_mem_filter hp)
  have hspec := fun x hx => Cluster_recentered_spec x D (hmem x hx)
  have hrec : a.Recenter = .ok (a.map Cluster.recentered) :=
    Recenter_eq_map Cluster.recentered a (fun x hx => (hspec x hx).1)
  have hrval : ∀ i : Nat, (a.map Cluster.recentered)[i]? =
      cs[i]?.map (fun cl : Cluster => Cluster.recentered (assignedCluster cs dataset i cl)) := by
    intro i
    rw [List.getElem?_map, haval i]
    cases cs[i]? with
    | none => rfl
    | some cl => rfl
  -- every center after the pass has dimensionality `D`
  have hnow : ∀ y ∈ a.map Cluster.recentered, y.Center.Values.length = D := by
    intro y hy
    obtain ⟨x, hx, rfl⟩ := List.mem_map.mp hy
    by_cases hobs : x.Observations = []
    · rw [(hspec x hx).2.2.1 hobs]
      obtain ⟨i, hi⟩ := List.getElem?_of_mem hx
      rw [haval i] at hi
      cases hcs : cs[i]? with
      | none => rw [hcs] at hi; simp at hi
      | some cl0 =>
        rw [hcs] at hi
        simp only [Option.map_some', Option.some.injEq] at hi
        subst hi
        exact hc cl0 (List.getElem?_mem hcs)
    · exact ((hspec x hx).2.2.2 hobs).1
  have hidx : ∀ p ∈ dataset, assignedIndex cs p < cs.length :=
    fun p hp => (Nearest_plain_in_range cs p D hne hc (hd p hp)).2.1
  have hobjNew := passObjective_eq cs (a.map Cluster.recentered) D hne hc
    (by simp [halen]) hnow dataset hd
  have hobjOld := passObjective_eq cs cs D hne hc rfl hc dataset hd
  refine ⟨a.map Cluster.recentered, _, _, ?_, by simp [halen], ?_, hobjNew, hobjOld, ?_, ?_⟩
  · simp only [onePass, ha]
    exact hrec
  · intro i cl hcl
    rw [hrval i] at hcl
    cases hcs : cs[i]? with
    | none => rw [hcs] at hcl; simp at hcl
    | some cl0 =>
      rw [hcs] at hcl
      simp only [Option.map_some', Option.some.injEq] at hcl
      subst hcl
      have hai : a[i]? = some (assignedCluster cs dataset i cl0) := by
        rw [haval i, hcs]
        rfl
      have hx : assignedCluster cs dataset i cl0 ∈ a := List.getElem?_mem hai
      exact (hspec _ hx).2.1
  · rw [sum_by_assigned_index (assignedIndex cs)
        (fun p i => sqEuclid p.Values (centerValuesAt (a.map Cluster.recentered) i))
        cs.length dataset hidx,
      sum_by_assigned_index (assignedIndex cs)
        (fun p i => sqEuclid p.Values (centerValuesAt cs i)) cs.length dataset hidx]
    apply Finset.sum_le_sum
    intro i hi
    have hi1 : i < cs.length := Finset.mem_range.mp hi
    have hcs : cs[i]? = some cs[i] := List.getElem?_eq_getElem hi1
    have hai : a[i]? = some (assignedCluster cs dataset i cs[i]) := by
      rw [haval i, hcs]
      rfl
    have hx : assignedCluster cs dataset i cs[i] ∈ a := List.getElem?_mem hai
    have hnewc : centerValuesAt (a.map Cluster.recentered) i =
        (Cluster.recentered (assignedCluster cs dataset i cs[i])).Center.Values := by
      simp only [centerValuesAt, hrval i, hcs, Option.map_some']
    have holdc : centerValuesAt cs i = cs[i].Center.Values := by
      simp only [centerValuesAt, hcs]
    rw [hnewc, holdc]
    by_cases hF : dataset.filter (fun p => decide (assignedIndex cs p = i)) = []
    · rw [hF]
      simp
    · have hobs : (assignedCluster cs dataset i cs[i]).Observations ≠ [] := by
        simpa [assignedCluster] using hF
      have hmean := ((hspec _ hx).2.2.2 hobs).2
      have hopt := centroid_optimal (assignedCluster cs dataset i cs[i]).Observations
        (Cluster.recentered (assignedCluster cs dataset i cs[i])).Center.Values
        cs[i].Center.Values D hobs (hmem _ hx) hmean
      simpa [assignedCluster, List.map_map, Function.comp, Coordinates.toObservation,
        Coordinates.Coordinates] using hopt
  · intro p hp
    obtain ⟨hnear, hlt, hmin⟩ := Nearest_plain_in_range cs p D hne hc (hd p hp)
    have hcs : cs[assignedIndex cs p]? = some cs[assignedIndex cs p] :=
      List.getElem?_eq_getElem hlt
    refine ⟨assignedIndex cs p, cs[assignedIndex cs p], _, hnear, hcs,
      Distance_eq_sqEuclid p _ (by rw [hc _ (List.getElem_mem _), hd p hp]), ?_⟩
    intro other hother
    refine ⟨_, Distance_eq_sqEuclid p _ (by rw [hc _ hother, hd p hp]), ?_⟩
    have := hmin other hother
    simpa [centerValuesAt, hcs] using this

theorem one_pass_does_not_increase_objective_witness :
    ∃ r sNew sOld,
      onePass twoCenters
        (([⟨[1], ""⟩, ⟨[5], ""⟩, ⟨[7], ""⟩] : List Coordinates).map
          Coordinates.toObservation) = .ok r ∧
      r.length = twoCenters.length ∧
      (∀ (i : Nat) (cl : Cluster), r[i]? = some cl →
        cl.Observations = List.map Coordinates.toObservation
          (([⟨[1], ""⟩, ⟨[5], ""⟩, ⟨[7], ""⟩] : List Coordinates).filter
            (fun p => decide (assignedIndex twoCenters p = i)))) ∧
      passObjective twoCenters r [⟨[1], ""⟩, ⟨[5], ""⟩, ⟨[7], ""⟩] = .ok sNew ∧
      passObjective twoCenters twoCenters [⟨[1], ""⟩, ⟨[5], ""⟩, ⟨[7], ""⟩] = .ok sOld ∧
      sNew ≤ sOld ∧
      ∀ p ∈ ([⟨[1], ""⟩, ⟨[5], ""⟩, ⟨[7], ""⟩] : List Coordinates),
        ∃ i cl d, twoCenters.Nearest p.toObservation = .ok i ∧ twoCenters[i]? = some cl ∧
          p.Distance cl.Center = .ok d ∧
          ∀ other ∈ twoCenters, ∃ d1, p.Distance other.Center = .ok d1 ∧ d ≤ d1 :=
  one_pass_does_not_increase_objective twoCenters [⟨[1], ""⟩, ⟨[5], ""⟩, ⟨[7], ""⟩] 1
    (by simp [twoCenters])
    (by
      intro cl hcl
      simp only [twoCenters, List.mem_cons, List.mem_singleton, List.not_mem_nil,
        or_false] at hcl
      rcases hcl with rfl | rfl <;> rfl)
    (by
      intro p hp
      simp only [List.mem_cons, List.mem_singleton, List.not_mem_nil, or_false] at hp
      rcases hp with rfl | rfl | rfl <;> rfl)


theorem roundHalfEven_of_near (q : ℚ) (m : ℤ) (h1 : (m : ℚ) - 1 / 2 < q)
    (h2 : q < (m : ℚ) + 1 / 2) : roundHalfEven q = m := by
  unfold roundHalfEven
  rcases le_or_lt (m : ℚ) q with hle | hlt
  · have hf : ⌊q⌋ = m := Int.floor_eq_iff.mpr ⟨hle, by linarith⟩
    rw [hf, if_pos (by linarith)]
  · have hf : ⌊q⌋ = m - 1 := Int.floor_eq_iff.mpr ⟨by push_cast; linarith, by push_cast; linarith⟩
    rw [hf]
    have h3 : ¬ (q - ((m - 1 : ℤ) : ℚ) < 1 / 2) := by push_cast; linarith
    have h4 : 1 / 2 < q - ((m - 1 : ℤ) : ℚ) := by push_cast; linarith
    rw [if_neg h3, if_pos h4]
    ring

theorem roundHalfEven_tie_up (q : ℚ) (m : ℤ) (hm : m % 2 = 0) (h : q = (m : ℚ) - 1 / 2) :
    roundHalfEven q = m := by
  unfold roundHalfEven
  have hf : ⌊q⌋ = m - 1 := Int.floor_eq_iff.mpr ⟨by push_cast; linarith, by push_cast; linarith⟩
  rw [hf]
  have h3 : ¬ (q - ((m - 1 : ℤ) : ℚ) < 1 / 2) := by push_cast; linarith
  have h4 : ¬ (1 / 2 < q - ((m - 1 : ℤ) : ℚ)) := by push_cast; linarith
  have h5 : ¬ ((m - 1) % 2 = 0) := by omega
  rw [if_neg h3, if_neg h4, if_neg h5]
  ring

theorem roundHalfEven_tie_down (q : ℚ) (m : ℤ) (hm : m % 2 = 0) (h : q = (m : ℚ) + 1 / 2) :
    roundHalfEven q = m := by
  unfold roundHalfEven
  have hf : ⌊q⌋ = m := Int.floor_eq_iff.mpr ⟨by linarith, by linarith⟩
  rw [hf]
  have h3 : ¬ (q - (m : ℚ) < 1 / 2) := by linarith
  have h4 : ¬ (1 / 2 < q - (m : ℚ)) := by linarith
  rw [if_neg h3, if_neg h4, if_pos hm]

theorem roundHalfEven_nonneg (q : ℚ) (h : 0 ≤ q) : 0 ≤ roundHalfEven q := by
  have hf : 0 ≤ ⌊q⌋ := Int.floor_nonneg.mpr h
  unfold roundHalfEven
  split_ifs <;> omega

theorem round64_zero : round64 0 = 0 := by
  simp [round64]

theorem round64_nonneg (x : ℚ) (h : 0 ≤ x) : 0 ≤ round64 x := by
  unfold round64
  split_ifs with h0
  · exact le_refl _
  · have hq : (0 : ℚ) < 2 ^ (exponent64 x - 52) := by positivity
    have hr := roundHalfEven_nonneg (x / 2 ^ (exponent64 x - 52)) (div_nonneg h (le_of_lt hq))
    have hr1 : (0 : ℚ) ≤ (roundHalfEven (x / 2 ^ (exponent64 x - 52)) : ℚ) := by
      exact_mod_cast hr
    exact mul_nonneg hr1 (le_of_lt hq)

theorem exponent64_of_binade (x : ℚ) (e : ℤ) (he : -1022 ≤ e) (hlo : (2 : ℚ) ^ e ≤ |x|)
    (hhi : |x| < (2 : ℚ) ^ (e + 1)) : exponent64 x = e := by
  have hpos : (0 : ℚ) < |x| := lt_of_lt_of_le (by positivity) hlo
  have h1 : e ≤ Int.log 2 |x| :=
    (Int.zpow_le_iff_le_log (by norm_num) hpos).mp (by exact_mod_cast hlo)
  have h2 : Int.log 2 |x| < e + 1 :=
    (Int.lt_zpow_iff_log_lt (by norm_num) hpos).mp (by exact_mod_cast hhi)
  unfold exponent64
  omega

theorem exponent64_of_tiny (x : ℚ) (hx : x ≠ 0) (hhi : |x| < (2 : ℚ) ^ (-1022 : ℤ)) :
    exponent64 x = -1022 := by
  have hpos : (0 : ℚ) < |x| := abs_pos.mpr hx
  have h2 : Int.log 2 |x| < -1022 :=
    (Int.lt_zpow_iff_log_lt (by norm_num) hpos).mp (by exact_mod_cast hhi)
  unfold exponent64
  omega

/-- A number `x` of the binade `2^e <= |x| < 2^(e+1)` whose quotient by the spacing
`2^(e-52)` is nearer to the integer `m` than to any other rounds to `m * 2^(e-52)`. -/
theorem round64_of_near (x : ℚ) (e m : ℤ) (he : -1022 ≤ e) (hlo : (2 : ℚ) ^ e ≤ |x|)
    (hhi : |x| < (2 : ℚ) ^ (e + 1))
    (h1 : (m : ℚ) - 1 / 2 < x / 2 ^ (e - 52)) (h2 : x / 2 ^ (e - 52) < (m : ℚ) + 1 / 2) :
    round64 x = (m : ℚ) * 2 ^ (e - 52) := by
  have hx : x ≠ 0 := by
    intro h0
    rw [h0, abs_zero] at hlo
    exact absurd hlo (not_le.mpr (by positivity))
  rw [round64, if_neg hx, exponent64_of_binade x e he hlo hhi,
    roundHalfEven_of_near _ m h1 h2]

/-- The same at a tie from below: the quotient is `m - 1/2` and `m` is even. -/
theorem round64_of_tie_up (x : ℚ) (e m : ℤ) (he : -1022 ≤ e) (hlo : (2 : ℚ) ^ e ≤ |x|)
    (hhi : |x| < (2 : ℚ) ^ (e + 1)) (hm : m % 2 = 0)
    (h : x / 2 ^ (e - 52) = (m : ℚ) - 1 / 2) :
    round64 x = (m : ℚ) * 2 ^ (e - 52) := by
  have hx : x ≠ 0 := by
    intro h0
    rw [h0, abs_zero] at hlo
    exact absurd hlo (not_le.mpr (by positivity))
  rw [round64, if_neg hx, exponent64_of_binade x e he hlo hhi,
    roundHalfEven_tie_up _ m hm h]

/-- The same at a tie from above: the quotient is `m + 1/2` and `m` is even. -/
theorem round64_of_tie_down (x : ℚ) (e m : ℤ) (he : -1022 ≤ e) (hlo : (2 : ℚ) ^ e ≤ |x|)
    (hhi : |x| < (2 : ℚ) ^ (e + 1)) (hm : m % 2 = 0)
    (h : x / 2 ^ (e - 52) = (m : ℚ) + 1 / 2) :
    round64 x = (m : ℚ) * 2 ^ (e - 52) := by
  have hx : x ≠ 0 := by
    intro h0
    rw [h0, abs_zero] at hlo
    exact absurd hlo (not_le.mpr (by positivity))
  rw [round64, if_neg hx, exponent64_of_binade x e he hlo hhi,
    roundHalfEven_tie_down _ m hm h]

/-- Underflow: a number smaller in magnitude than half of the smallest subnormal,
`2^(-1075)`, rounds to `0`. -/
theorem round64_underflow (x : ℚ) (h : |x| < (2 : ℚ) ^ (-1075 : ℤ)) : round64 x = 0 := by
  by_cases hx : x = 0
  · rw [hx, round64_zero]
  · have hq : (0 : ℚ) < 2 ^ (-1074 : ℤ) := by positivity
    have hlt : (2 : ℚ) ^ (-1075 : ℤ) < 2 ^ (-1022 : ℤ) :=
      zpow_lt_zpow_right₀ (by norm_num) (by norm_num)
    have he := exponent64_of_tiny x hx (lt_trans h hlt)
    have hhalf : (2 : ℚ) ^ (-1075 : ℤ) = 1 / 2 * 2 ^ (-1074 : ℤ) := by
      rw [show (-1075 : ℤ) = -1 + -1074 by norm_num, zpow_add₀ (by norm_num)]
      norm_num
    rw [hhalf] at h
    obtain ⟨hl, hu⟩ := abs_lt.mp h
    have h1 : ((0 : ℤ) : ℚ) - 1 / 2 < x / 2 ^ (-1074 : ℤ) := by
      rw [lt_div_iff₀ hq]
      push_cast
      linarith
    have h2 : x / 2 ^ (-1074 : ℤ) < ((0 : ℤ) : ℚ) + 1 / 2 := by
      rw [div_lt_iff₀ hq]
      push_cast
      linarith
    rw [round64, if_neg hx, he, show (-1022 : ℤ) - 52 = -1074 by norm_num,
      roundHalfEven_of_near _ 0 h1 h2]
    simp


theorem distanceLoop64_nonneg (p2 : List ℚ) :
    ∀ (vs : List ℚ) (i : Nat) (r : ℚ), i + vs.length ≤ p2.length → 0 ≤ r →
      ∃ d, Coordinates.distanceLoop64 p2 vs i r = .ok d ∧ 0 ≤ d := by
  intro vs
  induction vs with
  | nil => intro i r _ hr; exact ⟨r, rfl, hr⟩
  | cons v vs ih =>
    intro i r h hr
    have hi : i < p2.length := by simp at h; omega
    simp only [Coordinates.distanceLoop64, List.getElem?_eq_getElem hi]
    apply ih (i + 1) _ (by simp at h; omega)
    apply round64_nonneg
    exact add_nonneg hr (round64_nonneg _ (sq_nonneg _))

theorem distanceLoop64_same (p2 : List ℚ) :
    ∀ (vs : List ℚ) (i : Nat), vs = p2.drop i →
      Coordinates.distanceLoop64 p2 vs i 0 = .ok 0 := by
  intro vs
  induction vs with
  | nil => intro i _; rfl
  | cons v vs ih =>
    intro i h
    have hi : i < p2.length := by
      by_contra hge
      rw [List.drop_eq_nil_of_le (by omega)] at h
      cases h
    rw [List.drop_eq_getElem_cons hi] at h
    obtain ⟨hv, hvs⟩ := List.cons.inj h
    simp only [Coordinates.distanceLoop64, List.getElem?_eq_getElem hi]
    rw [hv]
    simp only [sub_self, round64_zero, ne_eq, OfNat.ofNat_ne_zero, not_false_eq_true,
      zero_pow, add_zero]
    exact ih (i + 1) hvs

theorem Distance64_one_dim (v w : ℚ) (la lb : String) :
    (⟨[v], la⟩ : Coordinates).Distance64 ⟨[w], lb⟩ =
      .ok (round64 (0 + round64 (round64 (v - w) ^ 2))) := by
  simp only [Coordinates.Distance64, Coordinates.distanceLoop64, List.getElem?_cons_zero]

/-- C19, counterexample: in float64 arithmetic the Coordinates `(2^-600)` and `(0)`, of
equal length and with different values, are at `Distance` `0`: the square `2^-1200`
underflows. -/
theorem Distance64_zero_for_different_values :
    (⟨[(2 : ℚ) ^ (-600 : ℤ)], ""⟩ : Coordinates).Values.length =
      (⟨[0], ""⟩ : Coordinates).Values.length ∧
    (⟨[(2 : ℚ) ^ (-600 : ℤ)], ""⟩ : Coordinates).Values ≠ (⟨[0], ""⟩ : Coordinates).Values ∧
    (⟨[(2 : ℚ) ^ (-600 : ℤ)], ""⟩ : Coordinates).Distance64 ⟨[0], ""⟩ = .ok 0 := by
  refine ⟨rfl, ?_, ?_⟩
  · intro h
    have h1 : (2 : ℚ) ^ (-600 : ℤ) = 0 := by simpa using h
    exact absurd h1 (by positivity)
  · have hpos : (0 : ℚ) < 2 ^ (-600 : ℤ) := by positivity
    have r1 : round64 ((2 : ℚ) ^ (-600 : ℤ) - 0) = 2 ^ (-600 : ℤ) := by
      have h := round64_of_near ((2 : ℚ) ^ (-600 : ℤ) - 0) (-600) 4503599627370496 (by norm_num)
        (by rw [sub_zero, abs_of_pos hpos])
        (by
          rw [sub_zero, abs_of_pos hpos]
          exact zpow_lt_zpow_right₀ (by norm_num) (by norm_num))
        (by
          rw [sub_zero, ← zpow_sub₀ (by norm_num)]
          norm_num)
        (by
          rw [sub_zero, ← zpow_sub₀ (by norm_num)]
          norm_num)
      rw [h]
      push_cast
      rw [show (4503599627370496 : ℚ) = 2 ^ (52 : ℤ) by norm_num,
        ← zpow_add₀ (by norm_num : (2 : ℚ) ≠ 0)]
      norm_num
    have r2 : round64 (((2 : ℚ) ^ (-600 : ℤ)) ^ 2) = 0 := by
      apply round64_underflow
      rw [abs_of_pos (by positivity), ← zpow_natCast, ← zpow_mul]
      exact zpow_lt_zpow_right₀ (by norm_num) (by norm_num)
    rw [Distance64_one_dim, r1, r2, add_zero, round64_zero]


/-- C19, amended: in float64 arithmetic, for Coordinates `a` and `b` of equal length
`a.Distance b` returns a number `d >= 0`, and `d = 0` whenever `a` and `b` have the same
values (labels play no part). Hence `d` never passes the sentinel test `dist < 0` of
`Nearest`, and the step of `AverageDistance` on a member `b` skips it exactly when its
computed distance is `0`, so in particular whenever its values are those of the point. -/
theorem Distance64_nonneg_and_zero_on_same_values (a b : Coordinates)
    (rest : List Observation) (acc : ℚ) (l : Nat)
    (h : a.Values.length = b.Values.length) :
    ∃ d, a.Distance64 b = .ok d ∧ 0 ≤ d ∧ (a.Values = b.Values → d = 0) ∧ ¬ d < 0 ∧
      averageDistanceLoop64 a.toObservation64 (b.toObservation64 :: rest) acc l =
        if d = 0 then averageDistanceLoop64 a.toObservation64 rest acc l
        else averageDistanceLoop64 a.toObservation64 rest (round64 (acc + d)) (l + 1) := by
  obtain ⟨d, hd, hnn⟩ := distanceLoop64_nonneg b.Values a.Values 0 0 (by omega) (le_refl _)
  refine ⟨d, hd, hnn, ?_, not_lt.mpr hnn, ?_⟩
  · intro heq
    have hsame := distanceLoop64_same b.Values a.Values 0 (by simpa using heq)
    have hd1 : Coordinates.distanceLoop64 b.Values a.Values 0 0 = .ok d := hd
    rw [hsame] at hd1
    exact (Except.ok.inj hd1).symm
  · have hd1 : a.toObservation64.Distance b.toObservation64.Coordinates = .ok d := hd
    simp only [averageDistanceLoop64, hd1]

theorem Distance64_nonneg_and_zero_on_same_values_witness :
    ∃ d, (⟨[1, 2], "a"⟩ : Coordinates).Distance64 ⟨[1, 2], "b"⟩ = .ok d ∧ 0 ≤ d ∧
      (([1, 2] : List ℚ) = [1, 2] → d = 0) ∧ ¬ d < 0 ∧
      averageDistanceLoop64 (⟨[1, 2], "a"⟩ : Coordinates).toObservation64
          ((⟨[1, 2], "b"⟩ : Coordinates).toObservation64 :: []) 0 0 =
        if d = 0 then
          averageDistanceLoop64 (⟨[1, 2], "a"⟩ : Coordinates).toObservation64 [] 0 0
        else averageDistanceLoop64 (⟨[1, 2], "a"⟩ : Coordinates).toObservation64 []
          (round64 (0 + d)) (0 + 1) :=
  Distance64_nonneg_and_zero_on_same_values ⟨[1, 2], "a"⟩ ⟨[1, 2], "b"⟩ [] 0 0 rfl

theorem averageDistanceLoop64_plain (o : Coordinates) :
    ∀ (observations : List Observation) (d : ℚ) (l : Nat),
      (∀ m ∈ observations, m.Coordinates.Values.length = o.Values.length) →
      averageDistanceLoop64 o.toObservation64 observations d l =
        .ok ((keptMembers64 o observations).foldl
              (fun acc m => round64 (acc + computedDistance64 o m)) d,
            l + (keptMembers64 o observations).length) := by
  intro observations
  induction observations with
  | nil =>
    intro d l _
    simp [averageDistanceLoop64, keptMembers64]
  | cons m rest ih =>
    intro d l h
    have hm : m.Coordinates.Values.length = o.Values.length := h m (List.mem_cons_self _ _)
    have hrest : ∀ x ∈ rest, x.Coordinates.Values.length = o.Values.length :=
      fun x hx => h x (List.mem_cons_of_mem _ hx)
    obtain ⟨dm, hdm, _⟩ := distanceLoop64_nonneg m.Coordinates.Values o.Values 0 0
      (by omega) (le_refl _)
    have hdist : o.toObservation64.Distance m.Coordinates = .ok dm := hdm
    have hc : computedDistance64 o m = dm := by
      have hdm1 : o.Distance64 m.Coordinates = .ok dm := hdm
      simp only [computedDistance64, hdm1]
    simp only [averageDistanceLoop64, hdist]
    by_cases hz : dm = 0
    · rw [if_pos hz, ih d l hrest]
      simp [keptMembers64, List.filter_cons, hc, hz]
    · rw [if_neg hz, ih _ _ hrest]
      simp only [keptMembers64, List.filter_cons, hc, hz, ne_eq, not_false_eq_true,
        decide_True, if_true, List.foldl_cons, List.length_cons]
      congr 2
      omega

/-- C9, amended: in float64 arithmetic, for a Coordinates point `o` and Observations of
the dimensionality of `o`, `AverageDistance` returns `0` when no member has a non-zero
computed distance from `o`, and otherwise the float64 sum (in member order) of the
computed distances of the members whose computed distance is not `0`, divided by the
number of such members; a member with the values of `o` is never among them. -/
theorem AverageDistance64_over_kept_members (o : Coordinates) (observations : Observations)
    (hdim : ∀ m ∈ observations, m.Coordinates.Values.length = o.Values.length) :
    (keptMembers64 o observations = [] →
      AverageDistance64 o.toObservation64 observations = .ok 0) ∧
    (keptMembers64 o observations ≠ [] →
      AverageDistance64 o.toObservation64 observations =
        .ok (round64 (sum64 ((keptMembers64 o observations).map (computedDistance64 o)) /
          ((keptMembers64 o observations).length : ℚ)))) ∧
    ∀ m ∈ observations, m.Coordinates.Values = o.Values → m ∉ keptMembers64 o observations := by
  have hloop := averageDistanceLoop64_plain o observations 0 0 hdim
  refine ⟨?_, ?_, ?_⟩
  · intro h
    simp only [AverageDistance64, hloop, h]
    simp
  · intro h
    have hlen : ¬ (0 + (keptMembers64 o observations).length = 0) := by
      intro h0
      exact h (List.length_eq_zero.mp (by omega))
    simp only [AverageDistance64, hloop, if_neg hlen, sum64, List.foldl_map]
    simp
  · intro m hm heq hkept
    have hne : computedDistance64 o m ≠ 0 := by
      have := (List.mem_filter.mp hkept).2
      simpa using this
    apply hne
    have hsame := distanceLoop64_same m.Coordinates.Values o.Values 0 (by simpa using heq.symm)
    have hd : o.Distance64 m.Coordinates = .ok 0 := hsame
    simp only [computedDistance64, hd]


theorem AverageDistance64_over_kept_members_witness :
    (keptMembers64 ⟨[0, 0], "o"⟩ originAndFar = [] →
      AverageDistance64 (⟨[0, 0], "o"⟩ : Coordinates).toObservation64 originAndFar = .ok 0) ∧
    (keptMembers64 ⟨[0, 0], "o"⟩ originAndFar ≠ [] →
      AverageDistance64 (⟨[0, 0], "o"⟩ : Coordinates).toObservation64 originAndFar =
        .ok (round64 (sum64 ((keptMembers64 ⟨[0, 0], "o"⟩ originAndFar).map
            (computedDistance64 ⟨[0, 0], "o"⟩)) /
          ((keptMembers64 ⟨[0, 0], "o"⟩ originAndFar).length : ℚ)))) ∧
    ∀ m ∈ originAndFar, m.Coordinates.Values = [0, 0] →
      m ∉ keptMembers64 ⟨[0, 0], "o"⟩ originAndFar :=
  AverageDistance64_over_kept_members ⟨[0, 0], "o"⟩ originAndFar
    (by
      intro m hm
      simp only [originAndFar, List.mem_cons, List.mem_singleton, List.not_mem_nil,
        or_false] at hm
      rcases hm with rfl | rfl <;> rfl)

theorem AverageDistance64_skip_then_keep (o v1 v2 : Coordinates) (d2 : ℚ)
    (h1 : o.Distance64 v1 = .ok 0) (h2 : o.Distance64 v2 = .ok d2) (hd2 : d2 ≠ 0) :
    AverageDistance64 o.toObservation64 [v1.toObservation64, v2.toObservation64] =
      .ok (round64 (round64 (0 + d2) / 1)) := by
  have h1a : o.toObservation64.Distance v1.toObservation64.Coordinates = .ok 0 := h1
  have h2a : o.toObservation64.Distance v2.toObservation64.Coordinates = .ok d2 := h2
  simp only [AverageDistance64, averageDistanceLoop64, h1a, h2a, if_true, if_neg hd2]
  simp

theorem round64_nine : round64 9 = 9 := by
  have h := round64_of_near 9 3 5066549580791808 (by norm_num) (by norm_num)
    (by norm_num) (by norm_num) (by norm_num)
  rw [h]
  norm_num

theorem round64_neg_three : round64 (-3) = -3 := by
  have h := round64_of_near (-3) 1 (-6755399441055744) (by norm_num) (by norm_num)
    (by norm_num) (by norm_num) (by norm_num)
  rw [h]
  norm_num

theorem round64_neg_tiny : round64 (0 - (2 : ℚ) ^ (-600 : ℤ)) = -(2 : ℚ) ^ (-600 : ℤ) := by
  have hpos : (0 : ℚ) < 2 ^ (-600 : ℤ) := by positivity
  have habs : |0 - (2 : ℚ) ^ (-600 : ℤ)| = 2 ^ (-600 : ℤ) := by
    rw [zero_sub, abs_neg, abs_of_pos hpos]
  have hq : (0 - (2 : ℚ) ^ (-600 : ℤ)) / 2 ^ ((-600 : ℤ) - 52) = -4503599627370496 := by
    rw [zero_sub, neg_div, ← zpow_sub₀ (by norm_num)]
    norm_num
  have h := round64_of_near (0 - (2 : ℚ) ^ (-600 : ℤ)) (-600) (-4503599627370496)
    (by norm_num)
    (by rw [habs])
    (by rw [habs]; exact zpow_lt_zpow_right₀ (by norm_num) (by norm_num))
    (by rw [hq]; norm_num)
    (by rw [hq]; norm_num)
  rw [h]
  push_cast
  rw [show (4503599627370496 : ℚ) = 2 ^ (52 : ℤ) by norm_num, neg_mul,
    ← zpow_add₀ (by norm_num : (2 : ℚ) ≠ 0)]
  norm_num

/-- C9, counterexample: in float64 arithmetic, for the point `(0)` and the members
`(2^-600)` and `(3)`, both with values different from the point's, the computed distances
are `0` (the square underflows) and `9`, and `AverageDistance` returns `9`: the first
member is skipped, so the result is not the sum over the two members divided by two. -/
theorem AverageDistance64_skips_distinct_member :
    (⟨[(2 : ℚ) ^ (-600 : ℤ)], ""⟩ : Coordinates).Values ≠ (⟨[0], ""⟩ : Coordinates).Values ∧
    (⟨[3], ""⟩ : Coordinates).Values ≠ (⟨[0], ""⟩ : Coordinates).Values ∧
    (⟨[0], ""⟩ : Coordinates).Distance64 ⟨[(2 : ℚ) ^ (-600 : ℤ)], ""⟩ = .ok 0 ∧
    (⟨[0], ""⟩ : Coordinates).Distance64 ⟨[3], ""⟩ = .ok 9 ∧
    AverageDistance64 (⟨[0], ""⟩ : Coordinates).toObservation64
      [(⟨[(2 : ℚ) ^ (-600 : ℤ)], ""⟩ : Coordinates).toObservation64,
       (⟨[3], ""⟩ : Coordinates).toObservation64] = .ok 9 ∧
    ((0 + 9) / 2 : ℚ) ≠ 9 := by
  have hd1 : (⟨[0], ""⟩ : Coordinates).Distance64 ⟨[(2 : ℚ) ^ (-600 : ℤ)], ""⟩ = .ok 0 := by
    have r2 : round64 ((-(2 : ℚ) ^ (-600 : ℤ)) ^ 2) = 0 := by
      apply round64_underflow
      rw [neg_sq, abs_of_pos (by positivity), ← zpow_natCast, ← zpow_mul]
      exact zpow_lt_zpow_right₀ (by norm_num) (by norm_num)
    rw [Distance64_one_dim, round64_neg_tiny, r2, add_zero, round64_zero]
  have hd2 : (⟨[0], ""⟩ : Coordinates).Distance64 ⟨[3], ""⟩ = .ok 9 := by
    rw [Distance64_one_dim, show (0 : ℚ) - 3 = -3 by norm_num, round64_neg_three,
      show ((-3 : ℚ)) ^ 2 = 9 by norm_num, round64_nine,
      show (0 : ℚ) + 9 = 9 by norm_num, round64_nine]
  refine ⟨?_, ?_, hd1, hd2, ?_, by norm_num⟩
  · intro h
    have h1 : (2 : ℚ) ^ (-600 : ℤ) = 0 := by simpa using h
    exact absurd h1 (by positivity)
  · intro h
    simp at h
  · rw [AverageDistance64_skip_then_keep _ _ _ 9 hd1 hd2 (by norm_num),
      show (0 : ℚ) + 9 = 9 by norm_num, round64_nine,
      show (9 : ℚ) / 1 = 9 by norm_num, round64_nine]


theorem round64_pos_of_near (x : ℚ) (e m : ℤ) (he : -1022 ≤ e) (hlo : (2 : ℚ) ^ e ≤ x)
    (hhi : x < (2 : ℚ) ^ (e + 1))
    (h1 : (m : ℚ) - 1 / 2 < x / 2 ^ (e - 52)) (h2 : x / 2 ^ (e - 52) < (m : ℚ) + 1 / 2) :
    round64 x = (m : ℚ) * 2 ^ (e - 52) := by
  have hx : 0 < x := lt_of_lt_of_le (by positivity) hlo
  exact round64_of_near x e m he (by rw [abs_of_pos hx]; exact hlo)
    (by rw [abs_of_pos hx]; exact hhi) h1 h2

theorem round64_neg_of_near (x : ℚ) (e m : ℤ) (he : -1022 ≤ e) (hlo : (2 : ℚ) ^ e ≤ -x)
    (hhi : -x < (2 : ℚ) ^ (e + 1))
    (h1 : (m : ℚ) - 1 / 2 < x / 2 ^ (e - 52)) (h2 : x / 2 ^ (e - 52) < (m : ℚ) + 1 / 2) :
    round64 x = (m : ℚ) * 2 ^ (e - 52) := by
  have hx : x < 0 := by
    have : 0 < -x := lt_of_lt_of_le (by positivity) hlo
    linarith
  exact round64_of_near x e m he (by rw [abs_of_neg hx]; exact hlo)
    (by rw [abs_of_neg hx]; exact hhi) h1 h2

theorem round64_pos_of_tie_up (x : ℚ) (e m : ℤ) (he : -1022 ≤ e) (hlo : (2 : ℚ) ^ e ≤ x)
    (hhi : x < (2 : ℚ) ^ (e + 1)) (hm : m % 2 = 0)
    (h : x / 2 ^ (e - 52) = (m : ℚ) - 1 / 2) :
    round64 x = (m : ℚ) * 2 ^ (e - 52) := by
  have hx : 0 < x := lt_of_lt_of_le (by positivity) hlo
  exact round64_of_tie_up x e m he (by rw [abs_of_pos hx]; exact hlo)
    (by rw [abs_of_pos hx]; exact hhi) hm h

theorem Distance64_one_dim_eval (v w d s r : ℚ) (la lb : String)
    (h1 : round64 (v - w) = d) (h2 : round64 (d ^ 2) = s) (h3 : round64 (0 + s) = r) :
    (⟨[v], la⟩ : Coordinates).Distance64 ⟨[w], lb⟩ = .ok r := by
  rw [Distance64_one_dim, h1, h2, h3]

theorem round64_third_of_0_3 : round64 (f64_0_3 / 3) = f64_0_1_below := by
  rw [round64_pos_of_near (f64_0_3 / 3) (-4) 7205759403792793 (by norm_num)
    (by norm_num [f64_0_3]) (by norm_num [f64_0_3]) (by norm_num [f64_0_3])
    (by norm_num [f64_0_3])]
  norm_num [f64_0_1_below]

theorem round64_neg_0_1_below : round64 (0 - f64_0_1_below) = -f64_0_1_below := by
  rw [round64_neg_of_near (0 - f64_0_1_below) (-4) (-7205759403792793) (by norm_num)
    (by norm_num [f64_0_1_below]) (by norm_num [f64_0_1_below])
    (by norm_num [f64_0_1_below]) (by norm_num [f64_0_1_below])]
  norm_num [f64_0_1_below]

theorem round64_sq_0_1_below :
    round64 ((-f64_0_1_below) ^ 2) = 2882303761517117 / 2 ^ 58 := by
  rw [round64_pos_of_near ((-f64_0_1_below) ^ 2) (-7) 5764607523034234 (by norm_num)
    (by norm_num [f64_0_1_below]) (by norm_num [f64_0_1_below])
    (by norm_num [f64_0_1_below]) (by norm_num [f64_0_1_below])]
  norm_num

theorem round64_0_3_minus_0_1_below :
    round64 (f64_0_3 - f64_0_1_below) = 3602879701896397 / 2 ^ 54 := by
  rw [round64_pos_of_tie_up (f64_0_3 - f64_0_1_below) (-3) 7205759403792794 (by norm_num)
    (by norm_num [f64_0_3, f64_0_1_below]) (by norm_num [f64_0_3, f64_0_1_below])
    (by norm_num) (by norm_num [f64_0_3, f64_0_1_below])]
  norm_num

theorem round64_sq_0_2 :
    round64 ((3602879701896397 / 2 ^ 54 : ℚ) ^ 2) = 1441151880758559 / 2 ^ 55 := by
  rw [round64_pos_of_near ((3602879701896397 / 2 ^ 54 : ℚ) ^ 2) (-5) 5764607523034236
    (by norm_num) (by norm_num) (by norm_num) (by norm_num) (by norm_num)]
  norm_num

theorem round64_neg_0_1 : round64 (0 - f64_0_1) = -f64_0_1 := by
  rw [round64_neg_of_near (0 - f64_0_1) (-4) (-7205759403792794) (by norm_num)
    (by norm_num [f64_0_1]) (by norm_num [f64_0_1])
    (by norm_num [f64_0_1]) (by norm_num [f64_0_1])]
  norm_num [f64_0_1]

theorem round64_sq_0_1 : round64 ((-f64_0_1) ^ 2) = 1441151880758559 / 2 ^ 57 := by
  rw [round64_pos_of_near ((-f64_0_1) ^ 2) (-7) 5764607523034236 (by norm_num)
    (by norm_num [f64_0_1]) (by norm_num [f64_0_1])
    (by norm_num [f64_0_1]) (by norm_num [f64_0_1])]
  norm_num

theorem round64_0_3_minus_0_1 :
    round64 (f64_0_3 - f64_0_1) = 7205759403792793 / 2 ^ 55 := by
  rw [round64_pos_of_near (f64_0_3 - f64_0_1) (-3) 7205759403792793 (by norm_num)
    (by norm_num [f64_0_3, f64_0_1]) (by norm_num [f64_0_3, f64_0_1])
    (by norm_num [f64_0_3, f64_0_1]) (by norm_num [f64_0_3, f64_0_1])]
  norm_num

theorem round64_sq_0_2_below :
    round64 ((7205759403792793 / 2 ^ 55 : ℚ) ^ 2) = 2882303761517117 / 2 ^ 56 := by
  rw [round64_pos_of_near ((7205759403792793 / 2 ^ 55 : ℚ) ^ 2) (-5) 5764607523034234
    (by norm_num) (by norm_num) (by norm_num) (by norm_num) (by norm_num)]
  norm_num

theorem round64_0_3 : round64 (0 + f64_0_3) = f64_0_3 := by
  rw [round64_pos_of_near (0 + f64_0_3) (-2) 5404319552844595 (by norm_num)
    (by norm_num [f64_0_3]) (by norm_num [f64_0_3]) (by norm_num [f64_0_3])
    (by norm_num [f64_0_3])]
  norm_num [f64_0_3]


theorem round64_keep_sq_0_1_below :
    round64 (0 + 2882303761517117 / 2 ^ 58) = 2882303761517117 / 2 ^ 58 := by
  rw [round64_pos_of_near (0 + 2882303761517117 / 2 ^ 58) (-7) 5764607523034234
    (by norm_num) (by norm_num) (by norm_num) (by norm_num) (by norm_num)]
  norm_num

theorem round64_keep_sq_0_2 :
    round64 (0 + 1441151880758559 / 2 ^ 55) = 1441151880758559 / 2 ^ 55 := by
  rw [round64_pos_of_near (0 + 1441151880758559 / 2 ^ 55) (-5) 5764607523034236
    (by norm_num) (by norm_num) (by norm_num) (by norm_num) (by norm_num)]
  norm_num

theorem round64_keep_sq_0_1 :
    round64 (0 + 1441151880758559 / 2 ^ 57) = 1441151880758559 / 2 ^ 57 := by
  rw [round64_pos_of_near (0 + 1441151880758559 / 2 ^ 57) (-7) 5764607523034236
    (by norm_num) (by norm_num) (by norm_num) (by norm_num) (by norm_num)]
  norm_num

theorem round64_keep_sq_0_2_below :
    round64 (0 + 2882303761517117 / 2 ^ 56) = 2882303761517117 / 2 ^ 56 := by
  rw [round64_pos_of_near (0 + 2882303761517117 / 2 ^ 56) (-5) 5764607523034234
    (by norm_num) (by norm_num) (by norm_num) (by norm_num) (by norm_num)]
  norm_num

theorem sum64_three (a b c : ℚ) :
    sum64 [a, b, c] = round64 (round64 (round64 (0 + a) + b) + c) := rfl

theorem sum64_to_new_center :
    sum64 [2882303761517117 / 2 ^ 58, 2882303761517117 / 2 ^ 58, 1441151880758559 / 2 ^ 55] =
      8646911284551353 / 2 ^ 57 := by
  rw [sum64_three, round64_keep_sq_0_1_below,
    round64_pos_of_near (2882303761517117 / 2 ^ 58 + 2882303761517117 / 2 ^ 58) (-6)
      5764607523034234 (by norm_num) (by norm_num) (by norm_num) (by norm_num) (by norm_num),
    round64_pos_of_near
      ((5764607523034234 : ℤ) * 2 ^ ((-6 : ℤ) - 52) + 1441151880758559 / 2 ^ 55) (-5)
      8646911284551353 (by norm_num) (by norm_num) (by norm_num) (by norm_num) (by norm_num)]
  norm_num

theorem sum64_to_old_center :
    sum64 [1441151880758559 / 2 ^ 57, 1441151880758559 / 2 ^ 57, 2882303761517117 / 2 ^ 56] =
      1080863910568919 / 2 ^ 54 := by
  rw [sum64_three, round64_keep_sq_0_1,
    round64_pos_of_near (1441151880758559 / 2 ^ 57 + 1441151880758559 / 2 ^ 57) (-6)
      5764607523034236 (by norm_num) (by norm_num) (by norm_num) (by norm_num) (by norm_num),
    round64_pos_of_near
      ((5764607523034236 : ℤ) * 2 ^ ((-6 : ℤ) - 52) + 2882303761517117 / 2 ^ 56) (-5)
      8646911284551352 (by norm_num) (by norm_num) (by norm_num) (by norm_num) (by norm_num)]
  norm_num

theorem Center64_three_one_dim (v1 v2 v3 : ℚ) (l1 l2 l3 : String) :
    Observations.Center64 [(⟨[v1], l1⟩ : Coordinates).toObservation64,
      (⟨[v2], l2⟩ : Coordinates).toObservation64,
      (⟨[v3], l3⟩ : Coordinates).toObservation64] =
    .ok (⟨[round64 (round64 (round64 (round64 (0 + v1) + v2) + v3) / 3)], ""⟩, none) := by
  simp only [Observations.Center64, Observations.centerOuter64, Observations.centerInner64,
    Coordinates.toObservation64, Coordinates.Coordinates, List.length_cons, List.length_nil,
    List.replicate, List.getElem?_cons_zero, List.set_cons_zero, List.map_cons, List.map_nil]
  norm_num

theorem Center64_of_0_0_0_3 :
    Observations.Center64 [(⟨[0], ""⟩ : Coordinates).toObservation64,
      (⟨[0], ""⟩ : Coordinates).toObservation64,
      (⟨[f64_0_3], ""⟩ : Coordinates).toObservation64] =
    .ok (⟨[f64_0_1_below], ""⟩, none) := by
  rw [Center64_three_one_dim]
  simp only [add_zero, round64_zero, round64_0_3, round64_third_of_0_3]

theorem Distance64_0_to_0_1_below :
    (⟨[0], ""⟩ : Coordinates).Distance64 ⟨[f64_0_1_below], ""⟩ =
      .ok (2882303761517117 / 2 ^ 58) :=
  Distance64_one_dim_eval 0 f64_0_1_below _ _ _ "" "" round64_neg_0_1_below
    round64_sq_0_1_below round64_keep_sq_0_1_below

theorem Distance64_0_3_to_0_1_below :
    (⟨[f64_0_3], ""⟩ : Coordinates).Distance64 ⟨[f64_0_1_below], ""⟩ =
      .ok (1441151880758559 / 2 ^ 55) :=
  Distance64_one_dim_eval f64_0_3 f64_0_1_below _ _ _ "" "" round64_0_3_minus_0_1_below
    round64_sq_0_2 round64_keep_sq_0_2

theorem Distance64_0_to_0_1 :
    (⟨[0], ""⟩ : Coordinates).Distance64 ⟨[f64_0_1], ""⟩ =
      .ok (1441151880758559 / 2 ^ 57) :=
  Distance64_one_dim_eval 0 f64_0_1 _ _ _ "" "" round64_neg_0_1
    round64_sq_0_1 round64_keep_sq_0_1

theorem Distance64_0_3_to_0_1 :
    (⟨[f64_0_3], ""⟩ : Coordinates).Distance64 ⟨[f64_0_1], ""⟩ =
      .ok (2882303761517117 / 2 ^ 56) :=
  Distance64_one_dim_eval f64_0_3 f64_0_1 _ _ _ "" "" round64_0_3_minus_0_1
    round64_sq_0_2_below round64_keep_sq_0_2_below


theorem Nearest_single_cluster (cl : Cluster) (point : Observation) (d : ℚ)
    (h : point.Distance cl.Center = .ok d) :
    Clusters.Nearest [cl] point = .ok 0 := by
  simp only [Clusters.Nearest, Clusters.nearestLoop, h]
  rw [if_pos (Or.inl (by norm_num))]

theorem Recenter64_single (cl : Cluster) (c : Coordinates)
    (h : Observations.Center64 cl.Observations = .ok (c, none)) :
    Clusters.Recenter64 [cl] = .ok [{ cl with Center := c }] := by
  simp only [Clusters.Recenter64, Clusters.recenterLoop64, List.length_singleton,
    List.getElem?_cons_zero, Cluster.Recenter64, h, List.set_cons_zero]

theorem onePass64_single_cluster (ctr c : Coordinates) (old : Observations)
    (p1 p2 p3 : Observation) (d1 d2 d3 : ℚ)
    (h1 : p1.Distance ctr = .ok d1) (h2 : p2.Distance ctr = .ok d2)
    (h3 : p3.Distance ctr = .ok d3)
    (hc : Observations.Center64 [p1, p2, p3] = .ok (c, none)) :
    onePass64 [{ Center := ctr, Observations := old }] [p1, p2, p3] =
      .ok [{ Center := c, Observations := [p1, p2, p3] }] := by
  have hn1 := Nearest_single_cluster { Center := ctr, Observations := [] } p1 d1 h1
  have hn2 := Nearest_single_cluster { Center := ctr, Observations := [p1] } p2 d2 h2
  have hn3 := Nearest_single_cluster { Center := ctr, Observations := [p1, p2] } p3 d3 h3
  have hassign : assignAll (Clusters.Reset [{ Center := ctr, Observations := old }])
      [p1, p2, p3] = .ok [{ Center := ctr, Observations := [p1, p2, p3] }] := by
    simp only [Clusters.Reset, Clusters.resetLoop, List.length_singleton,
      List.getElem?_cons_zero, List.set_cons_zero, assignAll, hn1, hn2, hn3, Cluster.Append,
      List.nil_append, List.singleton_append, List.cons_append]
  simp only [onePass64, hassign]
  exact Recenter64_single { Center := ctr, Observations := [p1, p2, p3] } c hc

/-- C17, counterexample: in float64 arithmetic, for the members `(0), (0), (0.3)` and
`p = (0.1)`, all of dimensionality 1, `Center` returns `(0.09999999999999999)`; the
distances of the members to it are `d, d, d3` and their distances to `p` are `e, e, e3`
with `e + e + e3 < d + d + d3`, both when the sums are exact and when they are float64
sums: the returned center is farther in total from the members than `p` is. -/
theorem Center64_not_minimising :
    Observations.Center64 [(⟨[0], ""⟩ : Coordinates).toObservation64,
      (⟨[0], ""⟩ : Coordinates).toObservation64,
      (⟨[f64_0_3], ""⟩ : Coordinates).toObservation64] =
        .ok (⟨[f64_0_1_below], ""⟩, none) ∧
    (⟨[0], ""⟩ : Coordinates).Distance64 ⟨[f64_0_1_below], ""⟩ =
      .ok (2882303761517117 / 2 ^ 58) ∧
    (⟨[f64_0_3], ""⟩ : Coordinates).Distance64 ⟨[f64_0_1_below], ""⟩ =
      .ok (1441151880758559 / 2 ^ 55) ∧
    (⟨[0], ""⟩ : Coordinates).Distance64 ⟨[f64_0_1], ""⟩ =
      .ok (1441151880758559 / 2 ^ 57) ∧
    (⟨[f64_0_3], ""⟩ : Coordinates).Distance64 ⟨[f64_0_1], ""⟩ =
      .ok (2882303761517117 / 2 ^ 56) ∧
    ((1441151880758559 / 2 ^ 57 + 1441151880758559 / 2 ^ 57 +
        2882303761517117 / 2 ^ 56 : ℚ) <
      2882303761517117 / 2 ^ 58 + 2882303761517117 / 2 ^ 58 +
        1441151880758559 / 2 ^ 55) ∧
    sum64 [1441151880758559 / 2 ^ 57, 1441151880758559 / 2 ^ 57,
        2882303761517117 / 2 ^ 56] <
      sum64 [2882303761517117 / 2 ^ 58, 2882303761517117 / 2 ^ 58,
        1441151880758559 / 2 ^ 55] := by
  refine ⟨Center64_of_0_0_0_3, Distance64_0_to_0_1_below, Distance64_0_3_to_0_1_below,
    Distance64_0_to_0_1, Distance64_0_3_to_0_1, by norm_num, ?_⟩
  rw [sum64_to_new_center, sum64_to_old_center]
  norm_num

/-- C18, counterexample: in float64 arithmetic, one pass over the dataset
`(0), (0), (0.3)` from the single cluster with center `(0.1)` assigns every observation
to cluster `0` and moves its center to `(0.09999999999999999)`; the distances of the
observations to the new center are `d, d, d3`, those to the old center are `e, e, e3`,
and `e + e + e3 < d + d + d3`, as exact sums and as float64 sums: the pass has increased
the objective. -/
theorem onePass64_increases_objective :
    onePass64 [{ Center := ⟨[f64_0_1], ""⟩, Observations := [] }]
        [(⟨[0], ""⟩ : Coordinates).toObservation64,
         (⟨[0], ""⟩ : Coordinates).toObservation64,
         (⟨[f64_0_3], ""⟩ : Coordinates).toObservation64] =
      .ok [{ Center := ⟨[f64_0_1_below], ""⟩,
             Observations := [(⟨[0], ""⟩ : Coordinates).toObservation64,
               (⟨[0], ""⟩ : Coordinates).toObservation64,
               (⟨[f64_0_3], ""⟩ : Coordinates).toObservation64] }] ∧
    Clusters.Nearest [{ Center := ⟨[f64_0_1], ""⟩, Observations := [] }]
        (⟨[0], ""⟩ : Coordinates).toObservation64 = .ok 0 ∧
    Clusters.Nearest [{ Center := ⟨[f64_0_1], ""⟩, Observations := [] }]
        (⟨[f64_0_3], ""⟩ : Coordinates).toObservation64 = .ok 0 ∧
    (⟨[0], ""⟩ : Coordinates).Distance64 ⟨[f64_0_1_below], ""⟩ =
      .ok (2882303761517117 / 2 ^ 58) ∧
    (⟨[f64_0_3], ""⟩ : Coordinates).Distance64 ⟨[f64_0_1_below], ""⟩ =
      .ok (1441151880758559 / 2 ^ 55) ∧
    (⟨[0], ""⟩ : Coordinates).Distance64 ⟨[f64_0_1], ""⟩ =
      .ok (1441151880758559 / 2 ^ 57) ∧
    (⟨[f64_0_3], ""⟩ : Coordinates).Distance64 ⟨[f64_0_1], ""⟩ =
      .ok (2882303761517117 / 2 ^ 56) ∧
    ((1441151880758559 / 2 ^ 57 + 1441151880758559 / 2 ^ 57 +
        2882303761517117 / 2 ^ 56 : ℚ) <
      2882303761517117 / 2 ^ 58 + 2882303761517117 / 2 ^ 58 +
        1441151880758559 / 2 ^ 55) ∧
    sum64 [1441151880758559 / 2 ^ 57, 1441151880758559 / 2 ^ 57,
        2882303761517117 / 2 ^ 56] <
      sum64 [2882303761517117 / 2 ^ 58, 2882303761517117 / 2 ^ 58,
        1441151880758559 / 2 ^ 55] := by
  refine ⟨?_, ?_, ?_, Distance64_0_to_0_1_below, Distance64_0_3_to_0_1_below,
    Distance64_0_to_0_1, Distance64_0_3_to_0_1, by norm_num, ?_⟩
  · exact onePass64_single_cluster ⟨[f64_0_1], ""⟩ ⟨[f64_0_1_below], ""⟩ []
      (⟨[0], ""⟩ : Coordinates).toObservation64 (⟨[0], ""⟩ : Coordinates).toObservation64
      (⟨[f64_0_3], ""⟩ : Coordinates).toObservation64 _ _ _
      Distance64_0_to_0_1 Distance64_0_to_0_1 Distance64_0_3_to_0_1 Center64_of_0_0_0_3
  · exact Nearest_single_cluster _ _ _ Distance64_0_to_0_1
  · exact Nearest_single_cluster _ _ _ Distance64_0_3_to_0_1
  · rw [sum64_to_new_center, sum64_to_old_center]
    norm_num

end clusters
